import Mathlib

/-!
# stackdriver-nozzle: serializer and metrics buffer

A shallow embedding of

* `src/stackdriver-nozzle/serializer/serializer.go` (classification of firehose
  envelopes, metric extraction, label building), and
* `src/stackdriver-nozzle/stackdriver/metrics_buffer.go` (the batching buffer),

followed by the theorems that settle the properties stated for them.

Conventions of the embedding.

* A Go pointer field `*T` is an `Option T`; `none` is the nil pointer.
* A Go `map[string]string` is an `Option LabelMap`: `none` is the nil map and
  `some m` an allocated map, `m` being a finite map with pairwise distinct keys.
* `uint64` and `int32` payload fields are carried as `Nat` and `Int`; the code
  performs no arithmetic on them.
* `float64` is an abstract type `F`; the three ways the code produces a
  `float64` out of something else are fields of `Externals`.
* A Go `panic` is the `error` branch of `Except Fault`.
* The adapter behind the buffer is a state machine over a state type `S`; the
  buffer records every batch handed to it and every error handed to the error
  channel.
-/

namespace StackdriverNozzle

/-! ## Go maps -/

/-- An allocated Go `map[string]string`. -/
abbrev LabelMap := AList (fun _ : String => String)

/-- A Go value of type `map[string]string`; `none` is the nil map. -/
abbrev GoMap := Option LabelMap

/-- The assignment `labels[k] = v`. -/
def LabelMap.set (labels : LabelMap) (k v : String) : LabelMap :=
  AList.insert k v labels

/-- The read `labels[k]` in its two-result form. -/
def LabelMap.get? (labels : LabelMap) (k : String) : Option String :=
  AList.lookup k labels

/-- Go's `reflect.DeepEqual` on two `map[string]string` values: both nil or both
non-nil, the same length, and every key of the first maps to the same value in
the second. -/
def DeepEqual : GoMap → GoMap → Bool
  | none, none => true
  | some a, some b =>
      a.entries.length == b.entries.length &&
        a.entries.all (fun kv => b.get? kv.1 == some kv.2)
  | _, _ => false

/-! ## The `events` package (sonde-go), as far as the code reads it -/

/-- The enum `events.Envelope_EventType` (an `int32`). -/
abbrev Envelope_EventType := Int

def Envelope_HttpStart : Envelope_EventType := 2
def Envelope_HttpStop : Envelope_EventType := 3
def Envelope_HttpStartStop : Envelope_EventType := 4
def Envelope_LogMessage : Envelope_EventType := 5
def Envelope_ValueMetric : Envelope_EventType := 6
def Envelope_CounterEvent : Envelope_EventType := 7
def Envelope_Error : Envelope_EventType := 8
def Envelope_ContainerMetric : Envelope_EventType := 9

/-- The method `Envelope_EventType.String`: the enum name of a known value, the
decimal numeral of any other. -/
def Envelope_EventType.String (t : Envelope_EventType) : String :=
  if t = Envelope_HttpStart then "HttpStart"
  else if t = Envelope_HttpStop then "HttpStop"
  else if t = Envelope_HttpStartStop then "HttpStartStop"
  else if t = Envelope_LogMessage then "LogMessage"
  else if t = Envelope_ValueMetric then "ValueMetric"
  else if t = Envelope_CounterEvent then "CounterEvent"
  else if t = Envelope_Error then "Error"
  else if t = Envelope_ContainerMetric then "ContainerMetric"
  else toString t

/-- The message `events.UUID`. -/
structure UUID where
  Low : Option Nat
  High : Option Nat
deriving DecidableEq, Repr

/-- The message `events.HttpStartStop`; of its fields the code reads the
application id only. -/
structure HttpStartStop where
  ApplicationId : Option UUID
  Uri : Option String
  StatusCode : Option Int
deriving DecidableEq, Repr

/-- The message `events.LogMessage`. -/
structure LogMessage where
  Message : Option String
  AppId : Option String
  SourceType : Option String
deriving DecidableEq, Repr

/-- The message `events.ValueMetric`. -/
structure ValueMetric (F : Type) where
  Name : Option String
  Value : Option F
  Unit : Option String

/-- The message `events.CounterEvent`. -/
structure CounterEvent where
  Name : Option String
  Delta : Option Nat
  Total : Option Nat
deriving DecidableEq, Repr

/-- The message `events.Error`. -/
structure Error where
  Source : Option String
  Code : Option Int
  Message : Option String
deriving DecidableEq, Repr

/-- The message `events.ContainerMetric`. -/
structure ContainerMetric (F : Type) where
  ApplicationId : Option String
  InstanceIndex : Option Int
  CpuPercentage : Option F
  MemoryBytes : Option Nat
  DiskBytes : Option Nat
  MemoryBytesQuota : Option Nat
  DiskBytesQuota : Option Nat

/-- The message `events.Envelope`. -/
structure Envelope (F : Type) where
  Origin : Option String
  EventType : Option Envelope_EventType
  Timestamp : Option Int
  Deployment : Option String
  Job : Option String
  Index : Option String
  Ip : Option String
  HttpStartStop : Option HttpStartStop
  LogMessage : Option LogMessage
  ValueMetric : Option (ValueMetric F)
  CounterEvent : Option CounterEvent
  Error : Option Error
  ContainerMetric : Option (ContainerMetric F)

/-- What the serializer takes from outside its own file and this embedding leaves
open: the value the generated getter `GetEventType` falls back to, the helper
`utils.FormatUUID`, and the `float64` conversions. -/
structure Externals (F : Type) where
  defaultEventType : Envelope_EventType
  FormatUUID : Option UUID → String
  float64OfUint64 : Nat → F
  float64OfInt32 : Int → F
  float64Zero : F

section Getters

variable {F : Type}

/-- Getter `(*HttpStartStop).GetApplicationId`, nil receiver included. -/
def HttpStartStop.GetApplicationId (m : Option HttpStartStop) : Option UUID :=
  m.bind (fun x => x.ApplicationId)

/-- Getter `(*LogMessage).GetAppId`, nil receiver included. -/
def LogMessage.GetAppId (m : Option LogMessage) : String :=
  (m.bind (fun x => x.AppId)).getD ""

/-- Getter `(*ValueMetric).GetName`. -/
def ValueMetric.GetName (m : Option (ValueMetric F)) : String :=
  (m.bind (fun x => x.Name)).getD ""

/-- Getter `(*ValueMetric).GetValue`. -/
def ValueMetric.GetValue (X : Externals F) (m : Option (ValueMetric F)) : F :=
  (m.bind (fun x => x.Value)).getD X.float64Zero

/-- Getter `(*ContainerMetric).GetApplicationId`. -/
def ContainerMetric.GetApplicationId (m : Option (ContainerMetric F)) : String :=
  (m.bind (fun x => x.ApplicationId)).getD ""

/-- Getter `(*ContainerMetric).GetInstanceIndex`. -/
def ContainerMetric.GetInstanceIndex (m : Option (ContainerMetric F)) : Int :=
  (m.bind (fun x => x.InstanceIndex)).getD 0

/-- Getter `(*ContainerMetric).GetCpuPercentage`. -/
def ContainerMetric.GetCpuPercentage (X : Externals F) (m : Option (ContainerMetric F)) : F :=
  (m.bind (fun x => x.CpuPercentage)).getD X.float64Zero

/-- Getter `(*ContainerMetric).GetMemoryBytes`. -/
def ContainerMetric.GetMemoryBytes (m : Option (ContainerMetric F)) : Nat :=
  (m.bind (fun x => x.MemoryBytes)).getD 0

/-- Getter `(*ContainerMetric).GetDiskBytes`. -/
def ContainerMetric.GetDiskBytes (m : Option (ContainerMetric F)) : Nat :=
  (m.bind (fun x => x.DiskBytes)).getD 0

/-- Getter `(*ContainerMetric).GetMemoryBytesQuota`. -/
def ContainerMetric.GetMemoryBytesQuota (m : Option (ContainerMetric F)) : Nat :=
  (m.bind (fun x => x.MemoryBytesQuota)).getD 0

/-- Getter `(*ContainerMetric).GetDiskBytesQuota`. -/
def ContainerMetric.GetDiskBytesQuota (m : Option (ContainerMetric F)) : Nat :=
  (m.bind (fun x => x.DiskBytesQuota)).getD 0

/-- Getter `(*Envelope).GetEventType`. -/
def Envelope.GetEventType (X : Externals F) (e : Envelope F) : Envelope_EventType :=
  e.EventType.getD X.defaultEventType

/-- Getter `(*Envelope).GetOrigin`. -/
def Envelope.GetOrigin (e : Envelope F) : String := e.Origin.getD ""

/-- Getter `(*Envelope).GetDeployment`. -/
def Envelope.GetDeployment (e : Envelope F) : String := e.Deployment.getD ""

/-- Getter `(*Envelope).GetJob`. -/
def Envelope.GetJob (e : Envelope F) : String := e.Job.getD ""

/-- Getter `(*Envelope).GetIndex`. -/
def Envelope.GetIndex (e : Envelope F) : String := e.Index.getD ""

/-- Getter `(*Envelope).GetIp`. -/
def Envelope.GetIp (e : Envelope F) : String := e.Ip.getD ""

/-- Getter `(*Envelope).GetHttpStartStop`. -/
def Envelope.GetHttpStartStop (e : Envelope F) : Option StackdriverNozzle.HttpStartStop :=
  e.HttpStartStop

/-- Getter `(*Envelope).GetLogMessage`. -/
def Envelope.GetLogMessage (e : Envelope F) : Option StackdriverNozzle.LogMessage :=
  e.LogMessage

/-- Getter `(*Envelope).GetValueMetric`. -/
def Envelope.GetValueMetric (e : Envelope F) : Option (StackdriverNozzle.ValueMetric F) :=
  e.ValueMetric

/-- Getter `(*Envelope).GetContainerMetric`. -/
def Envelope.GetContainerMetric (e : Envelope F) :
    Option (StackdriverNozzle.ContainerMetric F) :=
  e.ContainerMetric

end Getters

/-! ## `serializer.go` -/

/-- The struct `caching.App` returned by the application-metadata cache. -/
structure App where
  Name : String
  Guid : String
  SpaceName : String
  SpaceGuid : String
  OrgName : String
  OrgGuid : String
deriving DecidableEq, Repr

/-- The zero value of `caching.App`, which the cache returns on a miss. -/
def App.zero : App := ⟨"", "", "", "", "", ""⟩

def LabelPrefix : String := "cloudFoundry/"

/-- The struct `Metric`. -/
structure Metric (F : Type) where
  Name : String
  Value : F
  Labels : GoMap

/-- The struct `Log`; the payload is the envelope itself. -/
structure Log (F : Type) where
  Payload : Envelope F
  Labels : GoMap

/-- The ways a call of the serializer can panic. -/
inductive Fault where
  /-- The explicit `panic(fmt.Errorf("Unknown event type: %v", e.EventType))`. -/
  | unknownEventType (eventType : Option Envelope_EventType)
  /-- The runtime panic of dereferencing a nil pointer. -/
  | nilPointerDereference
deriving DecidableEq, Repr

/-- The struct `cachingClientSerializer`; the caching client is an interface value
that may be nil, and of its methods only `GetAppInfo` is called. -/
structure cachingClientSerializer where
  cachingClient : Option (String → App)

def NewSerializer (cachingClient : Option (String → App)) : cachingClientSerializer :=
  ⟨cachingClient⟩

section Serializer

variable {F : Type}

def getApplicationId (X : Externals F) (envelope : Envelope F) : String :=
  if envelope.GetEventType X = Envelope_HttpStartStop then
    X.FormatUUID (HttpStartStop.GetApplicationId envelope.GetHttpStartStop)
  else if envelope.GetEventType X = Envelope_LogMessage then
    LogMessage.GetAppId envelope.GetLogMessage
  else if envelope.GetEventType X = Envelope_ContainerMetric then
    ContainerMetric.GetApplicationId envelope.GetContainerMetric
  else
    ""

/-- The method `buildAppMetadataLabels`; it updates `labels` in place, so the
embedding returns the updated map. -/
def cachingClientSerializer.buildAppMetadataLabels (s : cachingClientSerializer)
    (appId : String) (labels : LabelMap) (_envelope : Envelope F) : LabelMap :=
  match s.cachingClient with
  | none => labels
  | some GetAppInfo =>
    let app := GetAppInfo appId
    let labels := if app.Name ≠ "" then labels.set (LabelPrefix ++ "appName") app.Name else labels
    let labels :=
      if app.SpaceName ≠ "" then labels.set (LabelPrefix ++ "spaceName") app.SpaceName else labels
    let labels :=
      if app.SpaceGuid ≠ "" then labels.set (LabelPrefix ++ "spaceGuid") app.SpaceGuid else labels
    let labels :=
      if app.OrgName ≠ "" then labels.set (LabelPrefix ++ "orgName") app.OrgName else labels
    let labels :=
      if app.OrgGuid ≠ "" then labels.set (LabelPrefix ++ "orgGuid") app.OrgGuid else labels
    labels

def cachingClientSerializer.buildLabels (s : cachingClientSerializer) (X : Externals F)
    (envelope : Envelope F) : LabelMap :=
  let labels : LabelMap := ∅
  let labels :=
    if envelope.Origin ≠ none then labels.set (LabelPrefix ++ "origin") envelope.GetOrigin
    else labels
  let labels :=
    if envelope.EventType ≠ none then
      labels.set (LabelPrefix ++ "eventType") (envelope.GetEventType X).String
    else labels
  let labels :=
    if envelope.Deployment ≠ none then
      labels.set (LabelPrefix ++ "deployment") envelope.GetDeployment
    else labels
  let labels :=
    if envelope.Job ≠ none then labels.set (LabelPrefix ++ "job") envelope.GetJob else labels
  let labels :=
    if envelope.Index ≠ none then labels.set (LabelPrefix ++ "index") envelope.GetIndex
    else labels
  let labels :=
    if envelope.Ip ≠ none then labels.set (LabelPrefix ++ "ip") envelope.GetIp else labels
  let appId := getApplicationId X envelope
  if appId ≠ "" then
    let labels := labels.set (LabelPrefix ++ "applicationId") appId
    s.buildAppMetadataLabels appId labels envelope
  else
    labels

def cachingClientSerializer.GetLog (s : cachingClientSerializer) (X : Externals F)
    (e : Envelope F) : Log F :=
  { Payload := e, Labels := some (s.buildLabels X e) }

def cachingClientSerializer.GetMetrics (s : cachingClientSerializer) (X : Externals F)
    (envelope : Envelope F) : Except Fault (List (Metric F)) :=
  if envelope.GetEventType X = Envelope_ValueMetric then
    .ok [{ Name := ValueMetric.GetName envelope.GetValueMetric
           Value := ValueMetric.GetValue X envelope.GetValueMetric
           Labels := some (s.buildLabels X envelope) }]
  else if envelope.GetEventType X = Envelope_ContainerMetric then
    let containerMetric := envelope.GetContainerMetric
    let labels : GoMap := some (s.buildLabels X envelope)
    .ok [
      ⟨"diskBytesQuota",
        X.float64OfUint64 (ContainerMetric.GetDiskBytesQuota containerMetric), labels⟩,
      ⟨"instanceIndex",
        X.float64OfInt32 (ContainerMetric.GetInstanceIndex containerMetric), labels⟩,
      ⟨"cpuPercentage", ContainerMetric.GetCpuPercentage X containerMetric, labels⟩,
      ⟨"diskBytes", X.float64OfUint64 (ContainerMetric.GetDiskBytes containerMetric), labels⟩,
      ⟨"memoryBytes",
        X.float64OfUint64 (ContainerMetric.GetMemoryBytes containerMetric), labels⟩,
      ⟨"memoryBytesQuota",
        X.float64OfUint64 (ContainerMetric.GetMemoryBytesQuota containerMetric), labels⟩]
  else
    .error (.unknownEventType envelope.EventType)

def cachingClientSerializer.IsLog (_s : cachingClientSerializer) (e : Envelope F) :
    Except Fault Bool :=
  match e.EventType with
  | none => .error .nilPointerDereference
  | some t =>
    if t = Envelope_HttpStartStop ∨ t = Envelope_LogMessage ∨ t = Envelope_Error then
      .ok true
    else if t = Envelope_ValueMetric ∨ t = Envelope_ContainerMetric then
      .ok false
    else if t = Envelope_CounterEvent then
      -- Not yet implemented as a metric
      .ok true
    else
      .error (.unknownEventType e.EventType)

end Serializer

/-! ## `metrics_buffer.go` -/

section Buffer

variable {F E S : Type}

/-- Modelled from the spec: the struct `Metric` of package `stackdriver`, whose
declaration is not among the sources. The data model gives a metric a name, a
value and labels, the fields of the serializer's `Metric`, and the buffer reads
`Name` and `Labels`. -/
abbrev stackdriver.Metric (F : Type) := StackdriverNozzle.Metric F

/-- The method `PostMetrics` of the interface `MetricAdapter`: from the adapter's
state and a batch to its next state and the error it returns, if any. -/
abbrev MetricAdapter (F E S : Type) := S → List (stackdriver.Metric F) → S × Option E

/-- The struct `metricsBuffer`. The field `adapter` is the current state of the
adapter object, `errs` the error values handed to the channel so far, oldest
first, and `posted` the batches the adapter has been called with so far, oldest
first. -/
structure metricsBuffer (F E S : Type) where
  size : Int
  adapter : S
  errs : List E
  metrics : List (stackdriver.Metric F)
  posted : List (List (stackdriver.Metric F))

def NewMetricsBuffer (size : Int) (adapter : S) : metricsBuffer F E S :=
  { size := size, adapter := adapter, errs := [], metrics := [], posted := [] }

def metricsBuffer.postMetrics (PostMetrics : MetricAdapter F E S) (mb : metricsBuffer F E S)
    (metrics : List (stackdriver.Metric F)) : metricsBuffer F E S :=
  let r := PostMetrics mb.adapter metrics
  let mb := { mb with adapter := r.1, posted := mb.posted ++ [metrics] }
  match r.2 with
  | some err => { mb with errs := mb.errs ++ [err] }
  | none => mb

/-- The condition of the loop in `addMetric`, for a buffered `metric` and the
incoming `newMetric`. -/
def sameIdentity (metric newMetric : stackdriver.Metric F) : Bool :=
  metric.Name == newMetric.Name && DeepEqual metric.Labels newMetric.Labels

def metricsBuffer.addMetric (PostMetrics : MetricAdapter F E S) (mb : metricsBuffer F E S)
    (newMetric : stackdriver.Metric F) : metricsBuffer F E S :=
  let existingMetric := mb.metrics.find? (fun metric => sameIdentity metric newMetric)
  match existingMetric with
  | none => { mb with metrics := mb.metrics ++ [newMetric] }
  | some _ => mb.postMetrics PostMetrics [newMetric]

def metricsBuffer.PostMetric (PostMetrics : MetricAdapter F E S) (mb : metricsBuffer F E S)
    (metric : stackdriver.Metric F) : metricsBuffer F E S :=
  let mb := mb.addMetric PostMetrics metric
  if (mb.metrics.length : Int) < mb.size then
    mb
  else
    let mb := mb.postMetrics PostMetrics mb.metrics
    { mb with metrics := [] }

/-- A sequence of `PostMetric` calls, first to last. -/
def metricsBuffer.PostMetricAll (PostMetrics : MetricAdapter F E S) (mb : metricsBuffer F E S)
    (metrics : List (stackdriver.Metric F)) : metricsBuffer F E S :=
  metrics.foldl (fun b m => b.PostMetric PostMetrics m) mb

end Buffer

/-! ## The nozzle -/

section Nozzle

variable {F E C : Type}

/-- The client behind the nozzle, the log sink and the metric sink in one (the
tests put `MockStackdriverClient` there): a state machine over a state type `C`.
`PostLog` returns nothing, `PostMetric` returns an error or nil. -/
structure StackdriverClient (F E C : Type) where
  PostLog : C → Envelope F → GoMap → C
  PostMetric : C → String → F → GoMap → C × Option E

/-- Modelled from the spec: the loop of `HandleEvent` over the extracted metrics,
whose file `nozzle.go` is not among the sources. Every metric is posted to the
metric sink in sequence order whether or not earlier posts failed, and the error
kept is the one of the most recent post that failed. -/
def postEachMetric (client : StackdriverClient F E C) :
    C → Option E → List (Metric F) → C × Option E
  | c, err, [] => (c, err)
  | c, err, metric :: metrics =>
    let r := client.PostMetric c metric.Name metric.Value metric.Labels
    let err :=
      match r.2 with
      | some failure => some failure
      | none => err
    postEachMetric client r.1 err metrics

/-- Modelled from the spec: the method `HandleEvent` of the nozzle, whose file
`nozzle.go` is not among the sources (its test is). An envelope that `IsLog`
classifies as a log is built into a `Log` and sent to the log sink, and the result
is nil. From any other envelope the metric sequence is extracted and every metric
posted; the result is nil when no post failed and the error of the most recent
failure otherwise. A panic of the serializer is not caught. -/
def HandleEvent (s : cachingClientSerializer) (X : Externals F)
    (client : StackdriverClient F E C) (c : C) (envelope : Envelope F) :
    Except Fault (C × Option E) :=
  match s.IsLog envelope with
  | .error fault => .error fault
  | .ok true =>
    let log := s.GetLog X envelope
    .ok (client.PostLog c log.Payload log.Labels, none)
  | .ok false =>
    match s.GetMetrics X envelope with
    | .error fault => .error fault
    | .ok metrics => .ok (postEachMetric client c none metrics)

end Nozzle

/-! ## Auxiliary definitions for the statements -/

/-- What the label of one application-metadata attribute is expected to be: absent
without an application id, without a caching client, or when the attribute the
client returns is empty, and the attribute otherwise. -/
def expectedMetadata (s : cachingClientSerializer) (appId : String) (attr : App → String) :
    Option String :=
  if appId = "" then none
  else
    match s.cachingClient with
    | none => none
    | some GetAppInfo =>
      if attr (GetAppInfo appId) = "" then none else some (attr (GetAppInfo appId))

section StatementDefinitions

variable {F E S C : Type}

/-- Reading the key `k` from a Go map; a nil map reads like an empty one. -/
def GoMap.get? (labels : GoMap) (k : String) : Option String :=
  match labels with
  | none => none
  | some l => l.get? k

/-- What the adapter returns, call by call, when it is handed `batches` one after
the other starting in the state `adapter`. -/
def adapterResults (PostMetrics : MetricAdapter F E S) :
    S → List (List (stackdriver.Metric F)) → List (Option E)
  | _, [] => []
  | adapter, batch :: batches =>
    (PostMetrics adapter batch).2 ::
      adapterResults PostMetrics (PostMetrics adapter batch).1 batches

/-- What the metric sink returns, call by call, when it is handed `metrics` one
after the other starting in the state `c`. -/
def sinkResults (client : StackdriverClient F E C) : C → List (Metric F) → List (Option E)
  | _, [] => []
  | c, metric :: metrics =>
    (client.PostMetric c metric.Name metric.Value metric.Labels).2 ::
      sinkResults client (client.PostMetric c metric.Name metric.Value metric.Labels).1 metrics

/-- The state of the metric sink after it has been handed `metrics` one after the
other starting in the state `c`. -/
def sinkAfter (client : StackdriverClient F E C) (c : C) (metrics : List (Metric F)) : C :=
  metrics.foldl (fun c metric => (client.PostMetric c metric.Name metric.Value metric.Labels).1) c

/-- The label mapping a Go map stands for; the nil map stands for the mapping
without entries. -/
def GoMap.mapping (labels : GoMap) : LabelMap :=
  match labels with
  | none => ∅
  | some l => l

/-- The identity of the data model, as the design words it: two metrics are the
same identity when their names are equal and their label mappings are equal,
that is have the same number of keys and every key of the one holds the same
value in the other. -/
def specifiedIdentity (metric newMetric : stackdriver.Metric F) : Bool :=
  metric.Name == newMetric.Name &&
    ((GoMap.mapping metric.Labels).entries.length ==
        (GoMap.mapping newMetric.Labels).entries.length &&
      (GoMap.mapping metric.Labels).entries.all
        (fun kv => (GoMap.mapping newMetric.Labels).get? kv.1 == some kv.2))

/-- The procedure `PostMetric` as the design of the batching engine words it, to
be compared with `metricsBuffer.PostMetric`: (1) the incoming metric is matched
by identity, name and label mapping, against every buffered metric; (2) without
a match it is appended; (3) with a match it is not appended but sent at once as a
batch of one; (4) after an append, and only then, a buffer whose length has
reached the capacity is sent whole and reset to empty. -/
def metricsBuffer.specifiedPostMetric (PostMetrics : MetricAdapter F E S)
    (mb : metricsBuffer F E S) (metric : stackdriver.Metric F) : metricsBuffer F E S :=
  if mb.metrics.any (fun buffered => specifiedIdentity buffered metric) then
    mb.postMetrics PostMetrics [metric]
  else
    let mb := { mb with metrics := mb.metrics ++ [metric] }
    if mb.size ≤ (mb.metrics.length : Int) then
      let mb := mb.postMetrics PostMetrics mb.metrics
      { mb with metrics := [] }
    else
      mb

/-- A sequence of calls of the specified procedure, first to last. -/
def metricsBuffer.specifiedPostMetricAll (PostMetrics : MetricAdapter F E S)
    (mb : metricsBuffer F E S) (metrics : List (stackdriver.Metric F)) : metricsBuffer F E S :=
  metrics.foldl (fun b m => b.specifiedPostMetric PostMetrics m) mb

end StatementDefinitions

/-! ## Sample inputs

The definitions above are evaluated on these; the envelopes are the ones of
`nozzle_test.go`. The externals are instantiated with Lean's double-precision
`Float`. -/

/-- One choice of the externals: `HttpStart` as the fallback event type, Lean's
`Float` as `float64`, and a `FormatUUID` that prints every non-nil UUID as the
zero UUID. -/
def sampleExternals : Externals Float where
  defaultEventType := Envelope_HttpStart
  FormatUUID := fun u =>
    match u with
    | none => ""
    | some _ => "00000000-0000-0000-0000-000000000000"
  float64OfUint64 := Float.ofNat
  float64OfInt32 := Float.ofInt
  float64Zero := 0

/-- An envelope with every field nil. -/
def emptyEnvelope : Envelope Float :=
  { Origin := none, EventType := none, Timestamp := none, Deployment := none, Job := none,
    Index := none, Ip := none, HttpStartStop := none, LogMessage := none, ValueMetric := none,
    CounterEvent := none, Error := none, ContainerMetric := none }

/-- The envelope of the test "ships something to the stackdriver client". -/
def httpStartStopEnvelope : Envelope Float :=
  { emptyEnvelope with EventType := some Envelope_HttpStartStop }

/-- An envelope of a type the serializer does not know. -/
def httpStartEnvelope : Envelope Float :=
  { emptyEnvelope with EventType := some Envelope_HttpStart }

/-- The envelope of the test "should post the value metric". -/
def valueMetricEnvelope : Envelope Float :=
  { emptyEnvelope with
    EventType := some Envelope_ValueMetric
    ValueMetric := some
      { Name := some "memoryStats.lastGCPauseTimeNS", Value := some 536182, Unit := none } }

/-- The envelope of the test "should post the container metrics". -/
def containerMetricEnvelope : Envelope Float :=
  { emptyEnvelope with
    EventType := some Envelope_ContainerMetric
    ContainerMetric := some
      { ApplicationId := some "ee2aa52e-3c8a-4851-b505-0cb9fe24806e"
        InstanceIndex := some 0
        CpuPercentage := some 0.061651273460637
        MemoryBytes := some 16601088
        DiskBytes := some 164634624
        MemoryBytesQuota := some 33554432
        DiskBytesQuota := some 1073741824 } }

/-- A log-message envelope of the application of the container-metric test. -/
def logMessageEnvelope : Envelope Float :=
  { emptyEnvelope with
    EventType := some Envelope_LogMessage
    LogMessage := some
      { Message := some "GET /health", AppId := some "ee2aa52e-3c8a-4851-b505-0cb9fe24806e",
        SourceType := some "RTR" } }

/-- A counter-event envelope that also carries the log message and the container
metric of an application. -/
def counterEventEnvelope : Envelope Float :=
  { containerMetricEnvelope with
    EventType := some Envelope_CounterEvent
    LogMessage := logMessageEnvelope.LogMessage
    CounterEvent := some { Name := some "requests", Delta := some 1, Total := some 10 } }

/-- An HTTP start-stop envelope with an application id. -/
def httpStartStopAppEnvelope : Envelope Float :=
  { emptyEnvelope with
    EventType := some Envelope_HttpStartStop
    HttpStartStop := some
      { ApplicationId := some { Low := some 5787664985733707502, High := some 1038819824527344053 },
        Uri := some "/health", StatusCode := some 200 } }

/-- A cache that knows one application. -/
def sampleGetAppInfo (appId : String) : App :=
  if appId = "ee2aa52e-3c8a-4851-b505-0cb9fe24806e" then
    { Name := "MyApp", Guid := appId, SpaceName := "MySpace", SpaceGuid := "2ab560c3",
      OrgName := "MyOrg", OrgGuid := "b494fb47" }
  else App.zero

/-- An adapter without state that accepts every batch. -/
def acceptingAdapter : MetricAdapter Float String Unit := fun _ _ => ((), none)

/-- An adapter without state that rejects every batch. -/
def failingAdapter : MetricAdapter Float String Unit := fun _ _ => ((), some "fail")

def requestsMetric : stackdriver.Metric Float :=
  { Name := "requests", Value := 1,
    Labels := some ((∅ : LabelMap).set "cloudFoundry/job" "router") }

def latencyMetric : stackdriver.Metric Float :=
  { Name := "latency", Value := 2,
    Labels := some ((∅ : LabelMap).set "cloudFoundry/job" "router") }

/-- A later reading of `requestsMetric`: the same name and labels, another value. -/
def requestsMetricAgain : stackdriver.Metric Float :=
  { requestsMetric with Value := 5 }

/-- A metric whose label map is nil. -/
def nilLabelsMetric : stackdriver.Metric Float :=
  { Name := "requests", Value := 1, Labels := none }

/-- A metric of the same name whose label map is allocated and empty. -/
def emptyLabelsMetric : stackdriver.Metric Float :=
  { Name := "requests", Value := 1, Labels := some ∅ }

/-- A client without state whose `PostMetric` always fails, like the mock of the
test "returns error if client errors out". -/
def failingClient : StackdriverClient Float String Unit where
  PostLog := fun _ _ _ => ()
  PostMetric := fun _ _ _ _ => ((), some "fail")

/-! ## Reading labels back -/

section LabelLemmas

theorem LabelMap.get?_set (labels : LabelMap) (k v k' : String) :
    (labels.set k v).get? k' = if k' = k then some v else labels.get? k' := by
  unfold LabelMap.set LabelMap.get?
  by_cases h : k' = k
  · subst h; simp
  · simp [h, AList.lookup_insert_ne h]

theorem LabelMap.get?_ite_set (c : Prop) [Decidable c] (labels : LabelMap) (k v k' : String) :
    (if c then labels.set k v else labels).get? k' =
      if c ∧ k' = k then some v else labels.get? k' := by
  by_cases hc : c <;> simp [hc, LabelMap.get?_set]

theorem LabelMap.get?_empty (k : String) : (∅ : LabelMap).get? k = none := by
  simp [LabelMap.get?]

theorem LabelMap.mem_iff_get? (labels : LabelMap) (k : String) :
    k ∈ labels ↔ labels.get? k ≠ none := by
  unfold LabelMap.get?
  rw [← AList.lookup_isSome]
  cases AList.lookup k labels <;> simp

theorem LabelMap.get?_ext_iff_perm (a b : LabelMap) :
    (∀ k, a.get? k = b.get? k) ↔ a.entries.Perm b.entries := by
  constructor
  · intro h
    refine List.lookup_ext a.nodupKeys b.nodupKeys ?_
    intro x y
    have hx : List.dlookup x a.entries = List.dlookup x b.entries := h x
    rw [hx]
  · intro h k
    exact AList.perm_lookup h

theorem DeepEqual_some_iff (a b : LabelMap) :
    DeepEqual (some a) (some b) = true ↔ ∀ k, a.get? k = b.get? k := by
  rw [LabelMap.get?_ext_iff_perm]
  simp only [DeepEqual, Bool.and_eq_true, beq_iff_eq, List.all_eq_true]
  constructor
  · rintro ⟨hlen, hall⟩
    have hsub : a.entries ⊆ b.entries := by
      intro kv hkv
      have h1 : b.get? kv.1 = some kv.2 := hall kv hkv
      exact (List.mem_dlookup_iff b.nodupKeys).1 h1
    exact (List.subperm_of_subset a.nodupKeys.nodup hsub).perm_of_length_le (by omega)
  · intro hperm
    refine ⟨hperm.length_eq, ?_⟩
    intro kv hkv
    have h1 : a.get? kv.1 = some kv.2 := (List.mem_dlookup_iff a.nodupKeys).2 hkv
    have h2 : a.get? kv.1 = b.get? kv.1 := AList.perm_lookup hperm
    rw [← h2]
    exact h1

theorem DeepEqual_iff (a b : GoMap) :
    DeepEqual a b = true ↔
      (a = none ∧ b = none) ∨
        ∃ la lb, a = some la ∧ b = some lb ∧ ∀ k, la.get? k = lb.get? k := by
  cases a with
  | none =>
    cases b with
    | none => simp [DeepEqual]
    | some lb => simp [DeepEqual]
  | some la =>
    cases b with
    | none => simp [DeepEqual]
    | some lb =>
      rw [DeepEqual_some_iff]
      simp

end LabelLemmas

section SerializerTheorems

variable {F : Type}

theorem buildLabels_get?_origin (s : cachingClientSerializer) (X : Externals F) (e : Envelope F) :
    (s.buildLabels X e).get? "cloudFoundry/origin" = e.Origin := by
  unfold cachingClientSerializer.buildLabels cachingClientSerializer.buildAppMetadataLabels
  rcases s.cachingClient with _ | g <;> by_cases ha : getApplicationId X e = "" <;>
    simp only [ha, ne_eq, not_true_eq_false, not_false_eq_true, if_true, if_false,
      LabelMap.get?_ite_set, LabelMap.get?_set, LabelMap.get?_empty] <;>
    simp [LabelPrefix] <;>
    cases h : e.Origin <;> simp [Envelope.GetOrigin, h]

theorem buildLabels_get?_deployment (s : cachingClientSerializer) (X : Externals F) (e : Envelope F) :
    (s.buildLabels X e).get? "cloudFoundry/deployment" = e.Deployment := by
  unfold cachingClientSerializer.buildLabels cachingClientSerializer.buildAppMetadataLabels
  rcases s.cachingClient with _ | g <;> by_cases ha : getApplicationId X e = "" <;>
    simp only [ha, ne_eq, not_true_eq_false, not_false_eq_true, if_true, if_false,
      LabelMap.get?_ite_set, LabelMap.get?_set, LabelMap.get?_empty] <;>
    simp [LabelPrefix] <;>
    cases h : e.Deployment <;> simp [Envelope.GetDeployment, h]

theorem buildLabels_get?_job (s : cachingClientSerializer) (X : Externals F) (e : Envelope F) :
    (s.buildLabels X e).get? "cloudFoundry/job" = e.Job := by
  unfold cachingClientSerializer.buildLabels cachingClientSerializer.buildAppMetadataLabels
  rcases s.cachingClient with _ | g <;> by_cases ha : getApplicationId X e = "" <;>
    simp only [ha, ne_eq, not_true_eq_false, not_false_eq_true, if_true, if_false,
      LabelMap.get?_ite_set, LabelMap.get?_set, LabelMap.get?_empty] <;>
    simp [LabelPrefix] <;>
    cases h : e.Job <;> simp [Envelope.GetJob, h]

theorem buildLabels_get?_index (s : cachingClientSerializer) (X : Externals F) (e : Envelope F) :
    (s.buildLabels X e).get? "cloudFoundry/index" = e.Index := by
  unfold cachingClientSerializer.buildLabels cachingClientSerializer.buildAppMetadataLabels
  rcases s.cachingClient with _ | g <;> by_cases ha : getApplicationId X e = "" <;>
    simp only [ha, ne_eq, not_true_eq_false, not_false_eq_true, if_true, if_false,
      LabelMap.get?_ite_set, LabelMap.get?_set, LabelMap.get?_empty] <;>
    simp [LabelPrefix] <;>
    cases h : e.Index <;> simp [Envelope.GetIndex, h]

theorem buildLabels_get?_ip (s : cachingClientSerializer) (X : Externals F) (e : Envelope F) :
    (s.buildLabels X e).get? "cloudFoundry/ip" = e.Ip := by
  unfold cachingClientSerializer.buildLabels cachingClientSerializer.buildAppMetadataLabels
  rcases s.cachingClient with _ | g <;> by_cases ha : getApplicationId X e = "" <;>
    simp only [ha, ne_eq, not_true_eq_false, not_false_eq_true, if_true, if_false,
      LabelMap.get?_ite_set, LabelMap.get?_set, LabelMap.get?_empty] <;>
    simp [LabelPrefix] <;>
    cases h : e.Ip <;> simp [Envelope.GetIp, h]

theorem buildLabels_get?_eventType (s : cachingClientSerializer) (X : Externals F)
    (e : Envelope F) :
    (s.buildLabels X e).get? "cloudFoundry/eventType" =
      e.EventType.map Envelope_EventType.String := by
  unfold cachingClientSerializer.buildLabels cachingClientSerializer.buildAppMetadataLabels
  rcases s.cachingClient with _ | g <;> by_cases ha : getApplicationId X e = "" <;>
    simp only [ha, ne_eq, not_true_eq_false, not_false_eq_true, if_true, if_false,
      LabelMap.get?_ite_set, LabelMap.get?_set, LabelMap.get?_empty] <;>
    simp [LabelPrefix] <;>
    cases h : e.EventType <;> simp [Envelope.GetEventType, h]

theorem buildLabels_get?_applicationId (s : cachingClientSerializer) (X : Externals F)
    (e : Envelope F) :
    (s.buildLabels X e).get? "cloudFoundry/applicationId" =
      if getApplicationId X e = "" then none else some (getApplicationId X e) := by
  unfold cachingClientSerializer.buildLabels cachingClientSerializer.buildAppMetadataLabels
  rcases s.cachingClient with _ | g <;> by_cases ha : getApplicationId X e = "" <;>
    simp only [ha, ne_eq, not_true_eq_false, not_false_eq_true, if_true, if_false,
      LabelMap.get?_ite_set, LabelMap.get?_set, LabelMap.get?_empty] <;>
    simp [LabelPrefix]

theorem buildLabels_get?_appName (s : cachingClientSerializer) (X : Externals F) (e : Envelope F) :
    (s.buildLabels X e).get? "cloudFoundry/appName" =
      expectedMetadata s (getApplicationId X e) App.Name := by
  unfold cachingClientSerializer.buildLabels cachingClientSerializer.buildAppMetadataLabels
    expectedMetadata
  rcases s.cachingClient with _ | g <;> by_cases ha : getApplicationId X e = "" <;>
    simp only [ha, ne_eq, not_true_eq_false, not_false_eq_true, if_true, if_false,
      LabelMap.get?_ite_set, LabelMap.get?_set, LabelMap.get?_empty] <;>
    simp [LabelPrefix]

theorem buildLabels_get?_spaceName (s : cachingClientSerializer) (X : Externals F) (e : Envelope F) :
    (s.buildLabels X e).get? "cloudFoundry/spaceName" =
      expectedMetadata s (getApplicationId X e) App.SpaceName := by
  unfold cachingClientSerializer.buildLabels cachingClientSerializer.buildAppMetadataLabels
    expectedMetadata
  rcases s.cachingClient with _ | g <;> by_cases ha : getApplicationId X e = "" <;>
    simp only [ha, ne_eq, not_true_eq_false, not_false_eq_true, if_true, if_false,
      LabelMap.get?_ite_set, LabelMap.get?_set, LabelMap.get?_empty] <;>
    simp [LabelPrefix]

theorem buildLabels_get?_spaceGuid (s : cachingClientSerializer) (X : Externals F) (e : Envelope F) :
    (s.buildLabels X e).get? "cloudFoundry/spaceGuid" =
      expectedMetadata s (getApplicationId X e) App.SpaceGuid := by
  unfold cachingClientSerializer.buildLabels cachingClientSerializer.buildAppMetadataLabels
    expectedMetadata
  rcases s.cachingClient with _ | g <;> by_cases ha : getApplicationId X e = "" <;>
    simp only [ha, ne_eq, not_true_eq_false, not_false_eq_true, if_true, if_false,
      LabelMap.get?_ite_set, LabelMap.get?_set, LabelMap.get?_empty] <;>
    simp [LabelPrefix]

theorem buildLabels_get?_orgName (s : cachingClientSerializer) (X : Externals F) (e : Envelope F) :
    (s.buildLabels X e).get? "cloudFoundry/orgName" =
      expectedMetadata s (getApplicationId X e) App.OrgName := by
  unfold cachingClientSerializer.buildLabels cachingClientSerializer.buildAppMetadataLabels
    expectedMetadata
  rcases s.cachingClient with _ | g <;> by_cases ha : getApplicationId X e = "" <;>
    simp only [ha, ne_eq, not_true_eq_false, not_false_eq_true, if_true, if_false,
      LabelMap.get?_ite_set, LabelMap.get?_set, LabelMap.get?_empty] <;>
    simp [LabelPrefix]

theorem buildLabels_get?_orgGuid (s : cachingClientSerializer) (X : Externals F) (e : Envelope F) :
    (s.buildLabels X e).get? "cloudFoundry/orgGuid" =
      expectedMetadata s (getApplicationId X e) App.OrgGuid := by
  unfold cachingClientSerializer.buildLabels cachingClientSerializer.buildAppMetadataLabels
    expectedMetadata
  rcases s.cachingClient with _ | g <;> by_cases ha : getApplicationId X e = "" <;>
    simp only [ha, ne_eq, not_true_eq_false, not_false_eq_true, if_true, if_false,
      LabelMap.get?_ite_set, LabelMap.get?_set, LabelMap.get?_empty] <;>
    simp [LabelPrefix]

/-! ### Classification -/

/-- C1. `IsLog` follows the policy table: on an envelope whose event type is
HttpStartStop, LogMessage, Error or CounterEvent it returns true, on one whose
event type is ValueMetric or ContainerMetric it returns false, and on one with
any other event type it panics with the unknown-event-type fault. -/
theorem IsLog_policy_table (s : cachingClientSerializer) (e : Envelope F)
    (t : Envelope_EventType) (h : e.EventType = some t) :
    ((t = Envelope_HttpStartStop ∨ t = Envelope_LogMessage ∨ t = Envelope_Error ∨
        t = Envelope_CounterEvent) → s.IsLog e = .ok true) ∧
    ((t = Envelope_ValueMetric ∨ t = Envelope_ContainerMetric) → s.IsLog e = .ok false) ∧
    ((t ≠ Envelope_HttpStartStop ∧ t ≠ Envelope_LogMessage ∧ t ≠ Envelope_Error ∧
        t ≠ Envelope_CounterEvent ∧ t ≠ Envelope_ValueMetric ∧ t ≠ Envelope_ContainerMetric) →
      s.IsLog e = .error (.unknownEventType (some t))) := by
  refine ⟨?_, ?_, ?_⟩
  · rintro (rfl | rfl | rfl | rfl) <;>
      simp [cachingClientSerializer.IsLog, h, Envelope_HttpStartStop, Envelope_LogMessage,
        Envelope_Error, Envelope_CounterEvent, Envelope_ValueMetric, Envelope_ContainerMetric]
  · rintro (rfl | rfl) <;>
      simp [cachingClientSerializer.IsLog, h, Envelope_HttpStartStop, Envelope_LogMessage,
        Envelope_Error, Envelope_ValueMetric, Envelope_ContainerMetric]
  · rintro ⟨h1, h2, h3, h4, h5, h6⟩
    simp [cachingClientSerializer.IsLog, h, h1, h2, h3, h4, h5, h6]

/-- The policy table of C1 read off at two concrete envelopes: an HttpStart
envelope faults, an HttpStartStop envelope is a log. -/
theorem IsLog_policy_table_witness :
    httpStartEnvelope.EventType = some Envelope_HttpStart ∧
    (NewSerializer none).IsLog httpStartEnvelope =
      .error (.unknownEventType (some Envelope_HttpStart)) ∧
    (NewSerializer none).IsLog httpStartStopEnvelope = .ok true :=
  ⟨rfl,
    (IsLog_policy_table (NewSerializer none) httpStartEnvelope Envelope_HttpStart rfl).2.2
      (by decide),
    (IsLog_policy_table (NewSerializer none) httpStartStopEnvelope Envelope_HttpStartStop
      rfl).1 (Or.inl rfl)⟩

/-! ### Metric extraction -/

/-- C2. On an envelope of type ContainerMetric, `GetMetrics` returns six metrics,
named diskBytesQuota, instanceIndex, cpuPercentage, diskBytes, memoryBytes and
memoryBytesQuota in this order, whose values are the payload fields converted to
`float64` and whose labels are all the label set built for the envelope; that
label set has the event-type entry "ContainerMetric" and, when the payload's
application id is not empty, an applicationId entry equal to it. -/
theorem GetMetrics_ContainerMetric (s : cachingClientSerializer) (X : Externals F)
    (e : Envelope F) (h : e.EventType = some Envelope_ContainerMetric) :
    s.GetMetrics X e = .ok [
      ⟨"diskBytesQuota",
        X.float64OfUint64 (ContainerMetric.GetDiskBytesQuota e.ContainerMetric),
        some (s.buildLabels X e)⟩,
      ⟨"instanceIndex",
        X.float64OfInt32 (ContainerMetric.GetInstanceIndex e.ContainerMetric),
        some (s.buildLabels X e)⟩,
      ⟨"cpuPercentage", ContainerMetric.GetCpuPercentage X e.ContainerMetric,
        some (s.buildLabels X e)⟩,
      ⟨"diskBytes", X.float64OfUint64 (ContainerMetric.GetDiskBytes e.ContainerMetric),
        some (s.buildLabels X e)⟩,
      ⟨"memoryBytes", X.float64OfUint64 (ContainerMetric.GetMemoryBytes e.ContainerMetric),
        some (s.buildLabels X e)⟩,
      ⟨"memoryBytesQuota",
        X.float64OfUint64 (ContainerMetric.GetMemoryBytesQuota e.ContainerMetric),
        some (s.buildLabels X e)⟩] ∧
    (s.buildLabels X e).get? "cloudFoundry/eventType" = some "ContainerMetric" ∧
    (ContainerMetric.GetApplicationId e.ContainerMetric ≠ "" →
      (s.buildLabels X e).get? "cloudFoundry/applicationId" =
        some (ContainerMetric.GetApplicationId e.ContainerMetric)) := by
  have ht : e.GetEventType X = Envelope_ContainerMetric := by simp [Envelope.GetEventType, h]
  refine ⟨?_, ?_, ?_⟩
  · simp [cachingClientSerializer.GetMetrics, ht, Envelope.GetContainerMetric,
      Envelope_ContainerMetric, Envelope_ValueMetric]
  · rw [buildLabels_get?_eventType, h]
    simp [Envelope_EventType.String, Envelope_ContainerMetric, Envelope_HttpStart,
      Envelope_HttpStop, Envelope_HttpStartStop, Envelope_LogMessage, Envelope_ValueMetric,
      Envelope_CounterEvent, Envelope_Error]
  · intro hne
    have ha : getApplicationId X e = ContainerMetric.GetApplicationId e.ContainerMetric := by
      simp [getApplicationId, ht, Envelope.GetContainerMetric, Envelope_ContainerMetric,
        Envelope_HttpStartStop, Envelope_LogMessage]
    rw [buildLabels_get?_applicationId, ha]
    simp [hne]

/-- C2 at the container-metric envelope of the test suite. -/
theorem GetMetrics_ContainerMetric_witness :
    containerMetricEnvelope.EventType = some Envelope_ContainerMetric ∧
    (NewSerializer none).GetMetrics sampleExternals containerMetricEnvelope = .ok [
      ⟨"diskBytesQuota", Float.ofNat 1073741824,
        some ((NewSerializer none).buildLabels sampleExternals containerMetricEnvelope)⟩,
      ⟨"instanceIndex", Float.ofInt 0,
        some ((NewSerializer none).buildLabels sampleExternals containerMetricEnvelope)⟩,
      ⟨"cpuPercentage", 0.061651273460637,
        some ((NewSerializer none).buildLabels sampleExternals containerMetricEnvelope)⟩,
      ⟨"diskBytes", Float.ofNat 164634624,
        some ((NewSerializer none).buildLabels sampleExternals containerMetricEnvelope)⟩,
      ⟨"memoryBytes", Float.ofNat 16601088,
        some ((NewSerializer none).buildLabels sampleExternals containerMetricEnvelope)⟩,
      ⟨"memoryBytesQuota", Float.ofNat 33554432,
        some ((NewSerializer none).buildLabels sampleExternals containerMetricEnvelope)⟩] ∧
    ((NewSerializer none).buildLabels sampleExternals containerMetricEnvelope).get?
        "cloudFoundry/eventType" = some "ContainerMetric" ∧
    ((NewSerializer none).buildLabels sampleExternals containerMetricEnvelope).get?
        "cloudFoundry/applicationId" = some "ee2aa52e-3c8a-4851-b505-0cb9fe24806e" :=
  have w := GetMetrics_ContainerMetric (NewSerializer none) sampleExternals
    containerMetricEnvelope rfl
  ⟨rfl, w.1, w.2.1, w.2.2 (by decide)⟩

/-- C3. On an envelope of type ValueMetric, `GetMetrics` returns one metric: its
name and value are those of the value-metric payload and its labels are the
label set built for the envelope. -/
theorem GetMetrics_ValueMetric (s : cachingClientSerializer) (X : Externals F)
    (e : Envelope F) (h : e.EventType = some Envelope_ValueMetric) :
    s.GetMetrics X e = .ok [
      { Name := ValueMetric.GetName e.ValueMetric
        Value := ValueMetric.GetValue X e.ValueMetric
        Labels := some (s.buildLabels X e) }] ∧
    (∀ vm name value, e.ValueMetric = some vm → vm.Name = some name → vm.Value = some value →
      s.GetMetrics X e = .ok [⟨name, value, some (s.buildLabels X e)⟩]) := by
  have ht : e.GetEventType X = Envelope_ValueMetric := by simp [Envelope.GetEventType, h]
  refine ⟨?_, ?_⟩
  · simp [cachingClientSerializer.GetMetrics, ht, Envelope.GetValueMetric]
  · intro vm name value hvm hn hv
    simp [cachingClientSerializer.GetMetrics, ht, Envelope.GetValueMetric, hvm,
      ValueMetric.GetName, ValueMetric.GetValue, hn, hv]

/-- C3 at the value-metric envelope of the test suite. -/
theorem GetMetrics_ValueMetric_witness :
    valueMetricEnvelope.EventType = some Envelope_ValueMetric ∧
    (NewSerializer none).GetMetrics sampleExternals valueMetricEnvelope = .ok [
      ⟨"memoryStats.lastGCPauseTimeNS", 536182,
        some ((NewSerializer none).buildLabels sampleExternals valueMetricEnvelope)⟩] :=
  ⟨rfl, (GetMetrics_ValueMetric (NewSerializer none) sampleExternals valueMetricEnvelope
    rfl).1⟩

/-- C6. `GetMetrics` panics with the unknown-event-type fault exactly when the
event type of the envelope is neither ValueMetric nor ContainerMetric; so it
panics on every envelope on which `IsLog` returns true and returns a non-empty
sequence of metrics on every envelope on which `IsLog` returns false. -/
theorem GetMetrics_fault_iff (s : cachingClientSerializer) (X : Externals F) (e : Envelope F) :
    (s.GetMetrics X e = .error (.unknownEventType e.EventType) ↔
      (e.GetEventType X ≠ Envelope_ValueMetric ∧
        e.GetEventType X ≠ Envelope_ContainerMetric)) ∧
    (∀ f, s.GetMetrics X e = .error f → f = .unknownEventType e.EventType) ∧
    (s.IsLog e = .ok true → s.GetMetrics X e = .error (.unknownEventType e.EventType)) ∧
    (s.IsLog e = .ok false → ∃ ms, s.GetMetrics X e = .ok ms ∧ ms ≠ []) := by
  refine ⟨?_, ?_, ?_, ?_⟩
  · by_cases h1 : e.GetEventType X = Envelope_ValueMetric
    · simp [cachingClientSerializer.GetMetrics, h1]
    · by_cases h2 : e.GetEventType X = Envelope_ContainerMetric
      · simp [cachingClientSerializer.GetMetrics, h2, Envelope_ContainerMetric,
          Envelope_ValueMetric]
      · simp [cachingClientSerializer.GetMetrics, h1, h2]
  · intro f
    unfold cachingClientSerializer.GetMetrics
    split_ifs <;> simp
    intro hf
    exact hf.symm
  · cases h : e.EventType with
    | none => simp [cachingClientSerializer.IsLog, h]
    | some t =>
      intro hl
      have ht : e.GetEventType X = t := by simp [Envelope.GetEventType, h]
      have h1 : t ≠ Envelope_ValueMetric := by
        rintro rfl
        simp [cachingClientSerializer.IsLog, h, Envelope_ValueMetric, Envelope_HttpStartStop,
          Envelope_LogMessage, Envelope_Error] at hl
      have h2 : t ≠ Envelope_ContainerMetric := by
        rintro rfl
        simp [cachingClientSerializer.IsLog, h, Envelope_ValueMetric, Envelope_HttpStartStop,
          Envelope_LogMessage, Envelope_Error, Envelope_ContainerMetric] at hl
      simp [cachingClientSerializer.GetMetrics, ht, h1, h2, h]
  · cases h : e.EventType with
    | none => simp [cachingClientSerializer.IsLog, h]
    | some t =>
      intro hl
      have ht : e.GetEventType X = t := by simp [Envelope.GetEventType, h]
      by_cases h1 : t = Envelope_ValueMetric
      · simp [cachingClientSerializer.GetMetrics, ht, h1]
      · by_cases h2 : t = Envelope_ContainerMetric
        · simp [cachingClientSerializer.GetMetrics, ht, h2, Envelope_ContainerMetric,
            Envelope_ValueMetric]
        · exfalso
          simp only [cachingClientSerializer.IsLog, h] at hl
          split_ifs at hl with a b c <;> simp_all

/-! ### Labels -/

/-- C7. For each of origin, event type, deployment, job, index and ip, the label
set built for an envelope has the key `cloudFoundry/` followed by the field name
exactly when the field is not nil in the envelope, and the value under the key is
then the value of the field, for the event type its name. -/
theorem buildLabels_envelope_fields (s : cachingClientSerializer) (X : Externals F)
    (e : Envelope F) :
    ((s.buildLabels X e).get? "cloudFoundry/origin" = e.Origin ∧
      (s.buildLabels X e).get? "cloudFoundry/eventType" =
        e.EventType.map Envelope_EventType.String ∧
      (s.buildLabels X e).get? "cloudFoundry/deployment" = e.Deployment ∧
      (s.buildLabels X e).get? "cloudFoundry/job" = e.Job ∧
      (s.buildLabels X e).get? "cloudFoundry/index" = e.Index ∧
      (s.buildLabels X e).get? "cloudFoundry/ip" = e.Ip) ∧
    (("cloudFoundry/origin" ∈ s.buildLabels X e ↔ e.Origin ≠ none) ∧
      ("cloudFoundry/eventType" ∈ s.buildLabels X e ↔ e.EventType ≠ none) ∧
      ("cloudFoundry/deployment" ∈ s.buildLabels X e ↔ e.Deployment ≠ none) ∧
      ("cloudFoundry/job" ∈ s.buildLabels X e ↔ e.Job ≠ none) ∧
      ("cloudFoundry/index" ∈ s.buildLabels X e ↔ e.Index ≠ none) ∧
      ("cloudFoundry/ip" ∈ s.buildLabels X e ↔ e.Ip ≠ none)) ∧
    LabelPrefix = "cloudFoundry/" := by
  refine ⟨⟨?_, ?_, ?_, ?_, ?_, ?_⟩, ⟨?_, ?_, ?_, ?_, ?_, ?_⟩, rfl⟩
  · exact buildLabels_get?_origin s X e
  · exact buildLabels_get?_eventType s X e
  · exact buildLabels_get?_deployment s X e
  · exact buildLabels_get?_job s X e
  · exact buildLabels_get?_index s X e
  · exact buildLabels_get?_ip s X e
  · rw [LabelMap.mem_iff_get?, buildLabels_get?_origin]
  · rw [LabelMap.mem_iff_get?, buildLabels_get?_eventType]
    cases e.EventType <;> simp
  · rw [LabelMap.mem_iff_get?, buildLabels_get?_deployment]
  · rw [LabelMap.mem_iff_get?, buildLabels_get?_job]
  · rw [LabelMap.mem_iff_get?, buildLabels_get?_index]
  · rw [LabelMap.mem_iff_get?, buildLabels_get?_ip]

theorem expectedMetadata_ne_empty (s : cachingClientSerializer) (appId : String)
    (attr : App → String) : expectedMetadata s appId attr ≠ some "" := by
  unfold expectedMetadata
  rcases s.cachingClient with _ | g
  · split_ifs <;> simp
  · by_cases h1 : appId = "" <;> by_cases h2 : attr (g appId) = "" <;> simp [h1, h2]

theorem expectedMetadata_ne_none_iff (s : cachingClientSerializer) (appId : String)
    (attr : App → String) :
    expectedMetadata s appId attr ≠ none ↔
      appId ≠ "" ∧ ∃ g, s.cachingClient = some g ∧ attr (g appId) ≠ "" := by
  unfold expectedMetadata
  rcases s.cachingClient with _ | g
  · split_ifs <;> simp
  · by_cases h1 : appId = "" <;> by_cases h2 : attr (g appId) = "" <;> simp [h1, h2]

theorem expectedMetadata_eq_some (s : cachingClientSerializer) (appId : String)
    (attr : App → String) (g : String → App) (hg : s.cachingClient = some g) (v : String)
    (h : expectedMetadata s appId attr = some v) : v = attr (g appId) := by
  unfold expectedMetadata at h
  rw [hg] at h
  by_cases h1 : appId = "" <;> by_cases h2 : attr (g appId) = "" <;> simp [h1, h2] at h
  exact h.symm

theorem buildLabels_without_metadata (s : cachingClientSerializer) (X : Externals F)
    (e : Envelope F)
    (h : s.cachingClient = none ∨
      ∃ g, s.cachingClient = some g ∧ g (getApplicationId X e) = App.zero) :
    s.buildLabels X e = (NewSerializer none).buildLabels X e := by
  unfold cachingClientSerializer.buildLabels cachingClientSerializer.buildAppMetadataLabels
    NewSerializer
  rcases h with h | ⟨g, hg, hz⟩
  · simp [h]
  · simp [hg, hz, App.zero]

/-- C8. For each of the attributes Name, SpaceName, SpaceGuid, OrgName and OrgGuid,
the label set has the key appName, spaceName, spaceGuid, orgName or orgGuid (after
`cloudFoundry/`) exactly when the resolved application id is not empty, a caching
client is configured and the attribute it returns for that id is not empty, and
the value is then that attribute. So no such label is ever empty, and without a
caching client, or with one that returns the zero metadata, the label set is the
one built from the envelope fields and the application id alone. -/
theorem buildLabels_app_metadata (s : cachingClientSerializer) (X : Externals F)
    (e : Envelope F) :
    (("cloudFoundry/appName" ∈ s.buildLabels X e ↔ getApplicationId X e ≠ "" ∧
        ∃ g, s.cachingClient = some g ∧ (g (getApplicationId X e)).Name ≠ "") ∧
      ("cloudFoundry/spaceName" ∈ s.buildLabels X e ↔ getApplicationId X e ≠ "" ∧
        ∃ g, s.cachingClient = some g ∧ (g (getApplicationId X e)).SpaceName ≠ "") ∧
      ("cloudFoundry/spaceGuid" ∈ s.buildLabels X e ↔ getApplicationId X e ≠ "" ∧
        ∃ g, s.cachingClient = some g ∧ (g (getApplicationId X e)).SpaceGuid ≠ "") ∧
      ("cloudFoundry/orgName" ∈ s.buildLabels X e ↔ getApplicationId X e ≠ "" ∧
        ∃ g, s.cachingClient = some g ∧ (g (getApplicationId X e)).OrgName ≠ "") ∧
      ("cloudFoundry/orgGuid" ∈ s.buildLabels X e ↔ getApplicationId X e ≠ "" ∧
        ∃ g, s.cachingClient = some g ∧ (g (getApplicationId X e)).OrgGuid ≠ "")) ∧
    (∀ g v, s.cachingClient = some g →
      ((s.buildLabels X e).get? "cloudFoundry/appName" = some v →
        v = (g (getApplicationId X e)).Name) ∧
      ((s.buildLabels X e).get? "cloudFoundry/spaceName" = some v →
        v = (g (getApplicationId X e)).SpaceName) ∧
      ((s.buildLabels X e).get? "cloudFoundry/spaceGuid" = some v →
        v = (g (getApplicationId X e)).SpaceGuid) ∧
      ((s.buildLabels X e).get? "cloudFoundry/orgName" = some v →
        v = (g (getApplicationId X e)).OrgName) ∧
      ((s.buildLabels X e).get? "cloudFoundry/orgGuid" = some v →
        v = (g (getApplicationId X e)).OrgGuid)) ∧
    ((s.buildLabels X e).get? "cloudFoundry/appName" ≠ some "" ∧
      (s.buildLabels X e).get? "cloudFoundry/spaceName" ≠ some "" ∧
      (s.buildLabels X e).get? "cloudFoundry/spaceGuid" ≠ some "" ∧
      (s.buildLabels X e).get? "cloudFoundry/orgName" ≠ some "" ∧
      (s.buildLabels X e).get? "cloudFoundry/orgGuid" ≠ some "") ∧
    ((s.cachingClient = none ∨
        ∃ g, s.cachingClient = some g ∧ g (getApplicationId X e) = App.zero) →
      s.buildLabels X e = (NewSerializer none).buildLabels X e) := by
  refine ⟨⟨?_, ?_, ?_, ?_, ?_⟩, ?_, ⟨?_, ?_, ?_, ?_, ?_⟩, buildLabels_without_metadata s X e⟩
  · rw [LabelMap.mem_iff_get?, buildLabels_get?_appName, expectedMetadata_ne_none_iff]
  · rw [LabelMap.mem_iff_get?, buildLabels_get?_spaceName, expectedMetadata_ne_none_iff]
  · rw [LabelMap.mem_iff_get?, buildLabels_get?_spaceGuid, expectedMetadata_ne_none_iff]
  · rw [LabelMap.mem_iff_get?, buildLabels_get?_orgName, expectedMetadata_ne_none_iff]
  · rw [LabelMap.mem_iff_get?, buildLabels_get?_orgGuid, expectedMetadata_ne_none_iff]
  · intro g v hg
    rw [buildLabels_get?_appName, buildLabels_get?_spaceName, buildLabels_get?_spaceGuid,
      buildLabels_get?_orgName, buildLabels_get?_orgGuid]
    exact ⟨expectedMetadata_eq_some s _ _ g hg v, expectedMetadata_eq_some s _ _ g hg v,
      expectedMetadata_eq_some s _ _ g hg v, expectedMetadata_eq_some s _ _ g hg v,
      expectedMetadata_eq_some s _ _ g hg v⟩
  · rw [buildLabels_get?_appName]; exact expectedMetadata_ne_empty s _ _
  · rw [buildLabels_get?_spaceName]; exact expectedMetadata_ne_empty s _ _
  · rw [buildLabels_get?_spaceGuid]; exact expectedMetadata_ne_empty s _ _
  · rw [buildLabels_get?_orgName]; exact expectedMetadata_ne_empty s _ _
  · rw [buildLabels_get?_orgGuid]; exact expectedMetadata_ne_empty s _ _

/-- C9. The application id is decided by the event type and the payload of that
type: for LogMessage it is the app-id field of the log message, for
ContainerMetric the application-id field of the container metric, for
HttpStartStop the UUID text of the application-id field of the HTTP start-stop,
each read as the empty string (for the UUID: as nil) when the payload or the
field is nil, and for every other event type the empty string, whatever else the
envelope carries. -/
theorem getApplicationId_by_event_type (X : Externals F) (e : Envelope F) :
    (e.GetEventType X = Envelope_LogMessage →
      getApplicationId X e = LogMessage.GetAppId e.LogMessage) ∧
    (e.GetEventType X = Envelope_ContainerMetric →
      getApplicationId X e = ContainerMetric.GetApplicationId e.ContainerMetric) ∧
    (e.GetEventType X = Envelope_HttpStartStop →
      getApplicationId X e = X.FormatUUID (HttpStartStop.GetApplicationId e.HttpStartStop)) ∧
    ((e.GetEventType X ≠ Envelope_LogMessage ∧ e.GetEventType X ≠ Envelope_ContainerMetric ∧
        e.GetEventType X ≠ Envelope_HttpStartStop) → getApplicationId X e = "") ∧
    (∀ e2 : Envelope F, e2.GetEventType X = e.GetEventType X →
      (e.GetEventType X = Envelope_LogMessage → e2.LogMessage = e.LogMessage) →
      (e.GetEventType X = Envelope_ContainerMetric → e2.ContainerMetric = e.ContainerMetric) →
      (e.GetEventType X = Envelope_HttpStartStop → e2.HttpStartStop = e.HttpStartStop) →
      getApplicationId X e2 = getApplicationId X e) ∧
    (∀ lm id, e.GetEventType X = Envelope_LogMessage → e.LogMessage = some lm →
      lm.AppId = some id → getApplicationId X e = id) ∧
    (∀ cm id, e.GetEventType X = Envelope_ContainerMetric → e.ContainerMetric = some cm →
      cm.ApplicationId = some id → getApplicationId X e = id) ∧
    (∀ hss, e.GetEventType X = Envelope_HttpStartStop → e.HttpStartStop = some hss →
      getApplicationId X e = X.FormatUUID hss.ApplicationId) ∧
    (e.GetEventType X = Envelope_LogMessage →
      (e.LogMessage = none ∨ ∃ lm, e.LogMessage = some lm ∧ lm.AppId = none) →
      getApplicationId X e = "") ∧
    (e.GetEventType X = Envelope_ContainerMetric →
      (e.ContainerMetric = none ∨
        ∃ cm, e.ContainerMetric = some cm ∧ cm.ApplicationId = none) →
      getApplicationId X e = "") ∧
    (e.GetEventType X = Envelope_HttpStartStop → e.HttpStartStop = none →
      getApplicationId X e = X.FormatUUID none) := by
  have hlog : e.GetEventType X = Envelope_LogMessage →
      getApplicationId X e = LogMessage.GetAppId e.LogMessage := by
    intro h
    simp [getApplicationId, h, Envelope.GetLogMessage, Envelope_LogMessage,
      Envelope_HttpStartStop]
  have hcon : e.GetEventType X = Envelope_ContainerMetric →
      getApplicationId X e = ContainerMetric.GetApplicationId e.ContainerMetric := by
    intro h
    simp [getApplicationId, h, Envelope.GetContainerMetric, Envelope_LogMessage,
      Envelope_HttpStartStop, Envelope_ContainerMetric]
  have hhttp : e.GetEventType X = Envelope_HttpStartStop →
      getApplicationId X e =
        X.FormatUUID (HttpStartStop.GetApplicationId e.HttpStartStop) := by
    intro h
    simp [getApplicationId, h, Envelope.GetHttpStartStop]
  refine ⟨hlog, hcon, hhttp, ?_, ?_, ?_, ?_, ?_, ?_, ?_, ?_⟩
  · rintro ⟨h1, h2, h3⟩
    simp [getApplicationId, h1, h2, h3]
  · intro e2 ht hl hc hh
    unfold getApplicationId
    rw [ht]
    by_cases h3 : e.GetEventType X = Envelope_HttpStartStop
    · rw [if_pos h3, if_pos h3]
      simp [Envelope.GetHttpStartStop, hh h3]
    · rw [if_neg h3, if_neg h3]
      by_cases h1 : e.GetEventType X = Envelope_LogMessage
      · rw [if_pos h1, if_pos h1]
        simp [Envelope.GetLogMessage, hl h1]
      · rw [if_neg h1, if_neg h1]
        by_cases h2 : e.GetEventType X = Envelope_ContainerMetric
        · rw [if_pos h2, if_pos h2]
          simp [Envelope.GetContainerMetric, hc h2]
        · rw [if_neg h2, if_neg h2]
  · intro lm id h hlm hid
    rw [hlog h, hlm]
    simp [LogMessage.GetAppId, hid]
  · intro cm id h hcm hid
    rw [hcon h, hcm]
    simp [ContainerMetric.GetApplicationId, hid]
  · intro hss h hh
    rw [hhttp h, hh]
    rfl
  · intro h hnil
    rw [hlog h]
    rcases hnil with hnil | ⟨lm, hlm, hid⟩
    · rw [hnil]
      rfl
    · rw [hlm]
      simp [LogMessage.GetAppId, hid]
  · intro h hnil
    rw [hcon h]
    rcases hnil with hnil | ⟨cm, hcm, hid⟩
    · rw [hnil]
      rfl
    · rw [hcm]
      simp [ContainerMetric.GetApplicationId, hid]
  · intro h hh
    rw [hhttp h, hh]
    rfl

/-- C9 at four envelopes: the log-message envelope and the container-metric
envelope resolve to the application id their payload carries, the HTTP start-stop
envelope to the UUID text of its application id, and the counter-event envelope,
which carries a log message and a container metric with an application id, to
the empty string. -/
theorem getApplicationId_by_event_type_witness :
    getApplicationId sampleExternals logMessageEnvelope =
      "ee2aa52e-3c8a-4851-b505-0cb9fe24806e" ∧
    getApplicationId sampleExternals containerMetricEnvelope =
      "ee2aa52e-3c8a-4851-b505-0cb9fe24806e" ∧
    getApplicationId sampleExternals httpStartStopAppEnvelope =
      sampleExternals.FormatUUID
        (some { Low := some 5787664985733707502, High := some 1038819824527344053 }) ∧
    getApplicationId sampleExternals counterEventEnvelope = "" :=
  ⟨(getApplicationId_by_event_type sampleExternals logMessageEnvelope).2.2.2.2.2.1
      _ _ rfl rfl rfl,
    (getApplicationId_by_event_type sampleExternals containerMetricEnvelope).2.2.2.2.2.2.1
      _ _ rfl rfl rfl,
    (getApplicationId_by_event_type sampleExternals httpStartStopAppEnvelope).2.2.2.2.2.2.2.1
      _ rfl rfl,
    (getApplicationId_by_event_type sampleExternals counterEventEnvelope).2.2.2.1
      ⟨by decide, by decide, by decide⟩⟩

/-- C10. The label set has the key `cloudFoundry/applicationId` exactly when the
resolved application id is not empty, and its value is then that id; so the label
set of a ValueMetric, CounterEvent or Error envelope has neither an applicationId
label nor an application-metadata label, whatever the caching client returns. -/
theorem buildLabels_applicationId (s : cachingClientSerializer) (X : Externals F)
    (e : Envelope F) :
    ("cloudFoundry/applicationId" ∈ s.buildLabels X e ↔ getApplicationId X e ≠ "") ∧
    (getApplicationId X e ≠ "" →
      (s.buildLabels X e).get? "cloudFoundry/applicationId" = some (getApplicationId X e)) ∧
    ((e.GetEventType X = Envelope_ValueMetric ∨ e.GetEventType X = Envelope_CounterEvent ∨
        e.GetEventType X = Envelope_Error) →
      (s.buildLabels X e).get? "cloudFoundry/applicationId" = none ∧
      (s.buildLabels X e).get? "cloudFoundry/appName" = none ∧
      (s.buildLabels X e).get? "cloudFoundry/spaceName" = none ∧
      (s.buildLabels X e).get? "cloudFoundry/spaceGuid" = none ∧
      (s.buildLabels X e).get? "cloudFoundry/orgName" = none ∧
      (s.buildLabels X e).get? "cloudFoundry/orgGuid" = none) := by
  refine ⟨?_, ?_, ?_⟩
  · rw [LabelMap.mem_iff_get?, buildLabels_get?_applicationId]
    by_cases h : getApplicationId X e = "" <;> simp [h]
  · intro h
    rw [buildLabels_get?_applicationId]
    simp [h]
  · intro h
    have ha : getApplicationId X e = "" := by
      rcases h with h | h | h <;>
        simp [getApplicationId, h, Envelope_ValueMetric, Envelope_CounterEvent, Envelope_Error,
          Envelope_HttpStartStop, Envelope_LogMessage, Envelope_ContainerMetric]
    rw [buildLabels_get?_applicationId, buildLabels_get?_appName, buildLabels_get?_spaceName,
      buildLabels_get?_spaceGuid, buildLabels_get?_orgName, buildLabels_get?_orgGuid]
    simp [ha, expectedMetadata]

/-! ### The keys of the label set -/

theorem keys_empty : ∀ k ∈ (∅ : LabelMap), ∃ rest, k = LabelPrefix ++ rest := by
  intro k hk
  exact absurd hk (AList.not_mem_empty k)

theorem keys_set (labels : LabelMap) (name v : String)
    (h : ∀ k ∈ labels, ∃ rest, k = LabelPrefix ++ rest) :
    ∀ k ∈ labels.set (LabelPrefix ++ name) v, ∃ rest, k = LabelPrefix ++ rest := by
  intro k hk
  unfold LabelMap.set at hk
  rw [AList.mem_insert] at hk
  rcases hk with rfl | hk
  · exact ⟨name, rfl⟩
  · exact h k hk

theorem keys_ite_set (c : Prop) [Decidable c] (labels : LabelMap) (name v : String)
    (h : ∀ k ∈ labels, ∃ rest, k = LabelPrefix ++ rest) :
    ∀ k ∈ (if c then labels.set (LabelPrefix ++ name) v else labels),
      ∃ rest, k = LabelPrefix ++ rest := by
  by_cases hc : c
  · rw [if_pos hc]
    exact keys_set labels name v h
  · rw [if_neg hc]
    exact h

theorem buildAppMetadataLabels_keys (s : cachingClientSerializer) (appId : String)
    (labels : LabelMap) (e : Envelope F) (h : ∀ k ∈ labels, ∃ rest, k = LabelPrefix ++ rest) :
    ∀ k ∈ s.buildAppMetadataLabels appId labels e, ∃ rest, k = LabelPrefix ++ rest := by
  unfold cachingClientSerializer.buildAppMetadataLabels
  rcases s.cachingClient with _ | g
  · exact h
  · exact keys_ite_set _ _ _ _ (keys_ite_set _ _ _ _ (keys_ite_set _ _ _ _
      (keys_ite_set _ _ _ _ (keys_ite_set _ _ _ _ h))))

theorem buildLabels_keys (s : cachingClientSerializer) (X : Externals F) (e : Envelope F) :
    ∀ k ∈ s.buildLabels X e, ∃ rest, k = LabelPrefix ++ rest := by
  have hfields := keys_ite_set (e.Ip ≠ none) _ "ip" e.GetIp
    (keys_ite_set (e.Index ≠ none) _ "index" e.GetIndex
      (keys_ite_set (e.Job ≠ none) _ "job" e.GetJob
        (keys_ite_set (e.Deployment ≠ none) _ "deployment" e.GetDeployment
          (keys_ite_set (e.EventType ≠ none) _ "eventType" (e.GetEventType X).String
            (keys_ite_set (e.Origin ≠ none) _ "origin" e.GetOrigin keys_empty)))))
  unfold cachingClientSerializer.buildLabels
  by_cases ha : getApplicationId X e = ""
  · simp only [ha, ne_eq, not_true_eq_false, if_false]
    exact hfields
  · simp only [ha, ne_eq, not_false_eq_true, if_true]
    exact buildAppMetadataLabels_keys s _ _ e (keys_set _ "applicationId" _ hfields)

theorem GetMetrics_labels (s : cachingClientSerializer) (X : Externals F) (e : Envelope F)
    (ms : List (Metric F)) (hms : s.GetMetrics X e = .ok ms) :
    ∀ m ∈ ms, m.Labels = some (s.buildLabels X e) := by
  intro m hm
  unfold cachingClientSerializer.GetMetrics at hms
  split_ifs at hms
  · simp only [Except.ok.injEq] at hms
    subst hms
    simp only [List.mem_singleton] at hm
    subst hm
    rfl
  · simp only [Except.ok.injEq] at hms
    subst hms
    simp only [List.mem_cons, List.mem_singleton, List.not_mem_nil, or_false] at hm
    rcases hm with rfl | rfl | rfl | rfl | rfl | rfl <;> rfl

/-- C15. Whatever the envelope and the caching client, every key of the label set
built for the envelope begins with `cloudFoundry/`, and that label set is the one
attached to the log `GetLog` returns and to every metric `GetMetrics` returns. -/
theorem labels_keys_namespaced (s : cachingClientSerializer) (X : Externals F)
    (e : Envelope F) :
    (∀ k ∈ s.buildLabels X e, ∃ rest, k = "cloudFoundry/" ++ rest) ∧
    (s.GetLog X e).Labels = some (s.buildLabels X e) ∧
    (∀ ms, s.GetMetrics X e = .ok ms → ∀ m ∈ ms, m.Labels = some (s.buildLabels X e)) :=
  ⟨buildLabels_keys s X e, rfl, GetMetrics_labels s X e⟩

/-- What `buildLabels` returns when the event type is the only metadata field of the
envelope that is not nil and the resolved application id is empty: the one entry
`cloudFoundry/eventType`, whose value is the name of the event type. -/
theorem buildLabels_event_type_only (s : cachingClientSerializer) (X : Externals F)
    (e : Envelope F) (t : Envelope_EventType) (ht : e.EventType = some t)
    (ho : e.Origin = none) (hd : e.Deployment = none) (hj : e.Job = none)
    (hi : e.Index = none) (hip : e.Ip = none) (ha : getApplicationId X e = "") :
    s.buildLabels X e = (∅ : LabelMap).set "cloudFoundry/eventType" t.String ∧
    (s.buildLabels X e).entries = [⟨"cloudFoundry/eventType", t.String⟩] ∧
    (s.GetLog X e).Labels = some ((∅ : LabelMap).set "cloudFoundry/eventType" t.String) ∧
    (∀ ms, s.GetMetrics X e = .ok ms → ∀ m ∈ ms,
      m.Labels = some ((∅ : LabelMap).set "cloudFoundry/eventType" t.String)) := by
  have hb : s.buildLabels X e = (∅ : LabelMap).set "cloudFoundry/eventType" t.String := by
    unfold cachingClientSerializer.buildLabels
    simp only [ht, ho, hd, hj, hi, hip, ha, ne_eq, not_true_eq_false, if_false,
      not_false_eq_true, if_true, reduceCtorEq, Envelope.GetEventType, Option.getD_some]
    rfl
  refine ⟨hb, ?_, ?_, ?_⟩
  · rw [hb]
    rfl
  · rw [← hb]
    rfl
  · intro ms hms m hm
    rw [← hb]
    exact GetMetrics_labels s X e ms hms m hm

/-- C16. The code at the two envelopes of the test suite that carry an event type
and nothing else and resolve no application id. The tests expect the labels of
the metric of the value-metric envelope to be `event_type` with the value
`ValueMetric` and the labels of the log of the HTTP start-stop envelope to be
`event_type` with the value `HttpStartStop`; the label sets the code attaches
have no key `event_type` and hold the name of the event type under
`cloudFoundry/eventType`. -/
theorem buildLabels_event_type_key_divergence :
    (valueMetricEnvelope.EventType = some Envelope_ValueMetric ∧
      valueMetricEnvelope.Origin = none ∧ valueMetricEnvelope.Deployment = none ∧
      valueMetricEnvelope.Job = none ∧ valueMetricEnvelope.Index = none ∧
      valueMetricEnvelope.Ip = none ∧
      getApplicationId sampleExternals valueMetricEnvelope = "") ∧
    (NewSerializer none).GetMetrics sampleExternals valueMetricEnvelope = .ok [
      ⟨"memoryStats.lastGCPauseTimeNS", 536182,
        some ((NewSerializer none).buildLabels sampleExternals valueMetricEnvelope)⟩] ∧
    ((NewSerializer none).buildLabels sampleExternals valueMetricEnvelope).entries =
      [⟨"cloudFoundry/eventType", "ValueMetric"⟩] ∧
    ((NewSerializer none).buildLabels sampleExternals valueMetricEnvelope).get? "event_type" =
      none ∧
    DeepEqual (some ((NewSerializer none).buildLabels sampleExternals valueMetricEnvelope))
      (some ((∅ : LabelMap).set "event_type" "ValueMetric")) = false ∧
    (httpStartStopEnvelope.EventType = some Envelope_HttpStartStop ∧
      httpStartStopEnvelope.Origin = none ∧ httpStartStopEnvelope.Deployment = none ∧
      httpStartStopEnvelope.Job = none ∧ httpStartStopEnvelope.Index = none ∧
      httpStartStopEnvelope.Ip = none ∧
      getApplicationId sampleExternals httpStartStopEnvelope = "") ∧
    (NewSerializer none).IsLog httpStartStopEnvelope = .ok true ∧
    ((NewSerializer none).GetLog sampleExternals httpStartStopEnvelope).Labels =
      some ((NewSerializer none).buildLabels sampleExternals httpStartStopEnvelope) ∧
    ((NewSerializer none).buildLabels sampleExternals httpStartStopEnvelope).entries =
      [⟨"cloudFoundry/eventType", "HttpStartStop"⟩] ∧
    ((NewSerializer none).buildLabels sampleExternals httpStartStopEnvelope).get?
      "event_type" = none ∧
    DeepEqual (some ((NewSerializer none).buildLabels sampleExternals httpStartStopEnvelope))
      (some ((∅ : LabelMap).set "event_type" "HttpStartStop")) = false :=
  ⟨⟨rfl, rfl, rfl, rfl, rfl, rfl, by decide⟩, rfl, by decide, by decide, by decide,
    ⟨rfl, rfl, rfl, rfl, rfl, rfl, by decide⟩, rfl, rfl, by decide, by decide, by decide⟩

end SerializerTheorems

/-! ## The nozzle -/

section NozzleTheorems

variable {F E C : Type}

theorem postEachMetric_eq (client : StackdriverClient F E C) (c : C) (err : Option E)
    (ms : List (Metric F)) :
    postEachMetric client c err ms =
      (sinkAfter client c ms, ((sinkResults client c ms).reduceOption.getLast?).or err) := by
  induction ms generalizing c err with
  | nil => simp [postEachMetric, sinkAfter, sinkResults]
  | cons m rest ih =>
    unfold postEachMetric sinkResults
    simp only
    rw [ih]
    cases hr : (client.PostMetric c m.Name m.Value m.Labels).2 with
    | none =>
      simp [sinkAfter, List.reduceOption_cons_of_none]
    | some f =>
      rw [List.reduceOption_cons_of_some, List.getLast?_cons]
      cases (sinkResults client (client.PostMetric c m.Name m.Value m.Labels).1
        rest).reduceOption.getLast? <;> simp [sinkAfter, Option.or]

theorem reduceOption_getLast?_eq_none_iff (results : List (Option E)) :
    results.reduceOption.getLast? = none ↔ ∀ r ∈ results, r = none := by
  rw [List.getLast?_eq_none_iff]
  induction results with
  | nil => simp
  | cons r rest ih =>
    cases r with
    | none => simp [List.reduceOption_cons_of_none, ih]
    | some f => simp [List.reduceOption_cons_of_some]

/-- C17. On an envelope classified as a metric envelope, `HandleEvent` hands every
extracted metric to the metric sink in sequence order, also after a post has
failed. It returns nil exactly when every post returned nil, and the error of the
last post that failed otherwise; for a single metric that is the result of its
post. -/
theorem HandleEvent_posts_every_metric (s : cachingClientSerializer) (X : Externals F)
    (client : StackdriverClient F E C) (c : C) (e : Envelope F)
    (hlog : s.IsLog e = .ok false) :
    ∃ ms, s.GetMetrics X e = .ok ms ∧
      HandleEvent s X client c e =
        .ok (sinkAfter client c ms, (sinkResults client c ms).reduceOption.getLast?) ∧
      ((sinkResults client c ms).reduceOption.getLast? = none ↔
        ∀ r ∈ sinkResults client c ms, r = none) ∧
      (∀ m, ms = [m] →
        HandleEvent s X client c e =
          .ok ((client.PostMetric c m.Name m.Value m.Labels).1,
            (client.PostMetric c m.Name m.Value m.Labels).2)) := by
  cases hm : s.GetMetrics X e with
  | error f =>
    exfalso
    cases ht : e.EventType with
    | none => simp [cachingClientSerializer.IsLog, ht] at hlog
    | some t =>
      have hget : e.GetEventType X = t := by simp [Envelope.GetEventType, ht]
      simp only [cachingClientSerializer.IsLog, ht] at hlog
      unfold cachingClientSerializer.GetMetrics at hm
      rw [hget] at hm
      split_ifs at hlog hm <;> simp_all
  | ok ms =>
    have hh : HandleEvent s X client c e =
        .ok (sinkAfter client c ms, (sinkResults client c ms).reduceOption.getLast?) := by
      unfold HandleEvent
      simp only [hlog, hm, postEachMetric_eq]
      cases (sinkResults client c ms).reduceOption.getLast? <;> rfl
    refine ⟨ms, rfl, hh, reduceOption_getLast?_eq_none_iff _, ?_⟩
    intro m hms
    rw [hh, hms]
    simp only [sinkAfter, sinkResults, List.foldl_cons, List.foldl_nil]
    cases (client.PostMetric c m.Name m.Value m.Labels).2 <;> rfl

/-- C17 at the value-metric envelope of the test suite with a client whose
`PostMetric` fails with "fail": the error returned is "fail". -/
theorem HandleEvent_posts_every_metric_witness :
    (NewSerializer none).IsLog valueMetricEnvelope = .ok false ∧
    HandleEvent (NewSerializer none) sampleExternals failingClient () valueMetricEnvelope =
      .ok ((), some "fail") := by
  refine ⟨rfl, ?_⟩
  obtain ⟨ms, hms, -, -, hsingle⟩ := HandleEvent_posts_every_metric (NewSerializer none)
    sampleExternals failingClient () valueMetricEnvelope rfl
  have hone : (NewSerializer none).GetMetrics sampleExternals valueMetricEnvelope = .ok [
      ⟨"memoryStats.lastGCPauseTimeNS", 536182,
        some ((NewSerializer none).buildLabels sampleExternals valueMetricEnvelope)⟩] := rfl
  rw [hone] at hms
  exact hsingle _ (Except.ok.inj hms).symm

end NozzleTheorems

/-! ## The metrics buffer -/

section BufferTheorems

variable {F E S : Type}

theorem postMetrics_metrics (PostMetrics : MetricAdapter F E S) (mb : metricsBuffer F E S)
    (batch : List (stackdriver.Metric F)) : (mb.postMetrics PostMetrics batch).metrics = mb.metrics := by
  unfold metricsBuffer.postMetrics
  simp only
  split <;> rfl

theorem postMetrics_size (PostMetrics : MetricAdapter F E S) (mb : metricsBuffer F E S)
    (batch : List (stackdriver.Metric F)) : (mb.postMetrics PostMetrics batch).size = mb.size := by
  unfold metricsBuffer.postMetrics
  simp only
  split <;> rfl

theorem postMetrics_posted (PostMetrics : MetricAdapter F E S) (mb : metricsBuffer F E S)
    (batch : List (stackdriver.Metric F)) :
    (mb.postMetrics PostMetrics batch).posted = mb.posted ++ [batch] := by
  unfold metricsBuffer.postMetrics
  simp only
  split <;> rfl

theorem addMetric_of_no_match (PostMetrics : MetricAdapter F E S) (mb : metricsBuffer F E S)
    (m : stackdriver.Metric F) (h : ∀ b ∈ mb.metrics, sameIdentity b m = false) :
    mb.addMetric PostMetrics m = { mb with metrics := mb.metrics ++ [m] } := by
  unfold metricsBuffer.addMetric
  have hf : mb.metrics.find? (fun metric => sameIdentity metric m) = none := by
    rw [List.find?_eq_none]
    intro b hb
    simp [h b hb]
  simp only [hf]

theorem addMetric_of_match (PostMetrics : MetricAdapter F E S) (mb : metricsBuffer F E S)
    (m : stackdriver.Metric F) (h : ∃ b ∈ mb.metrics, sameIdentity b m = true) :
    mb.addMetric PostMetrics m = mb.postMetrics PostMetrics [m] := by
  unfold metricsBuffer.addMetric
  cases hf : mb.metrics.find? (fun metric => sameIdentity metric m) with
  | some b => rfl
  | none =>
    exfalso
    rw [List.find?_eq_none] at hf
    obtain ⟨b, hb, hs⟩ := h
    exact hf b hb hs

theorem addMetric_size (PostMetrics : MetricAdapter F E S) (mb : metricsBuffer F E S)
    (m : stackdriver.Metric F) : (mb.addMetric PostMetrics m).size = mb.size := by
  unfold metricsBuffer.addMetric
  cases mb.metrics.find? (fun metric => sameIdentity metric m) with
  | some b => exact postMetrics_size PostMetrics mb [m]
  | none => rfl

theorem PostMetric_size (PostMetrics : MetricAdapter F E S) (mb : metricsBuffer F E S)
    (m : stackdriver.Metric F) : (mb.PostMetric PostMetrics m).size = mb.size := by
  unfold metricsBuffer.PostMetric
  simp only
  split_ifs
  · exact addMetric_size PostMetrics mb m
  · simp [postMetrics_size, addMetric_size]

theorem PostMetric_length_lt (PostMetrics : MetricAdapter F E S) (mb : metricsBuffer F E S)
    (m : stackdriver.Metric F) (hsize : 1 ≤ mb.size) :
    ((mb.PostMetric PostMetrics m).metrics.length : Int) < mb.size := by
  unfold metricsBuffer.PostMetric
  simp only
  split_ifs with h
  · rw [addMetric_size] at h
    exact h
  · simp
    omega

theorem PostMetricAll_append (PostMetrics : MetricAdapter F E S) (mb : metricsBuffer F E S)
    (l : List (stackdriver.Metric F)) (m : stackdriver.Metric F) :
    mb.PostMetricAll PostMetrics (l ++ [m]) =
      (mb.PostMetricAll PostMetrics l).PostMetric PostMetrics m := by
  simp [metricsBuffer.PostMetricAll, List.foldl_append]

theorem PostMetricAll_size (PostMetrics : MetricAdapter F E S) (mb : metricsBuffer F E S)
    (l : List (stackdriver.Metric F)) : (mb.PostMetricAll PostMetrics l).size = mb.size := by
  induction l using List.reverseRecOn with
  | nil => rfl
  | append_singleton l m ih => rw [PostMetricAll_append, PostMetric_size, ih]

theorem PostMetricAll_length_lt (PostMetrics : MetricAdapter F E S) (size : Int) (adapter : S)
    (hsize : 1 ≤ size) (l : List (stackdriver.Metric F)) :
    ((((NewMetricsBuffer size adapter : metricsBuffer F E S).PostMetricAll PostMetrics
      l).metrics.length : Nat) : Int) < size := by
  induction l using List.reverseRecOn with
  | nil =>
    simp [metricsBuffer.PostMetricAll, NewMetricsBuffer]
    omega
  | append_singleton l m _ =>
    rw [PostMetricAll_append]
    have hs := PostMetricAll_size PostMetrics
      (NewMetricsBuffer size adapter : metricsBuffer F E S) l
    have h := PostMetric_length_lt PostMetrics
      ((NewMetricsBuffer size adapter : metricsBuffer F E S).PostMetricAll PostMetrics l) m
      (by rw [hs]; exact hsize)
    rw [hs] at h
    exact h

theorem PostMetricAll_of_distinct_lt (PostMetrics : MetricAdapter F E S) (size : Int)
    (adapter : S) (l : List (stackdriver.Metric F))
    (hdistinct : l.Pairwise (fun a b => sameIdentity a b = false))
    (hlen : (l.length : Int) < size) :
    (NewMetricsBuffer size adapter : metricsBuffer F E S).PostMetricAll PostMetrics l =
      { size := size, adapter := adapter, errs := [], metrics := l, posted := [] } := by
  induction l using List.reverseRecOn with
  | nil => rfl
  | append_singleton l m ih =>
    rw [List.pairwise_append] at hdistinct
    obtain ⟨hl, _, hlm⟩ := hdistinct
    have hlen2 : (l.length : Int) < size := by
      simp at hlen
      omega
    rw [PostMetricAll_append, ih hl hlen2]
    unfold metricsBuffer.PostMetric
    rw [addMetric_of_no_match]
    · simp only
      rw [if_pos hlen]
    · intro b hb
      exact hlm b hb m (List.mem_singleton_self m)

/-- C4. With capacity `size` at least 1, posting `size` metrics that are pairwise
distinct by identity to a new buffer calls the adapter once, during the last
post and with all the metrics in the order they were posted: after each of the
first `size - 1` posts no batch has been handed over and the buffer holds the
metrics posted so far, and after the last post the one batch is the whole
sequence and the buffer is empty. -/
theorem PostMetric_flushes_at_capacity (PostMetrics : MetricAdapter F E S) (adapter : S)
    (size : Int) (ms : List (stackdriver.Metric F)) (hsize : 1 ≤ size) (hlen : (ms.length : Int) = size)
    (hdistinct : ms.Pairwise (fun a b => sameIdentity a b = false)) :
    (∀ k, k < ms.length →
      ((NewMetricsBuffer size adapter : metricsBuffer F E S).PostMetricAll PostMetrics
        (ms.take k)).posted = [] ∧
      ((NewMetricsBuffer size adapter : metricsBuffer F E S).PostMetricAll PostMetrics
        (ms.take k)).metrics = ms.take k) ∧
    ((NewMetricsBuffer size adapter : metricsBuffer F E S).PostMetricAll PostMetrics
      ms).posted = [ms] ∧
    ((NewMetricsBuffer size adapter : metricsBuffer F E S).PostMetricAll PostMetrics
      ms).metrics = [] := by
  refine ⟨?_, ?_⟩
  · intro k hk
    have hp : (ms.take k).Pairwise (fun a b => sameIdentity a b = false) :=
      hdistinct.sublist (List.take_sublist k ms)
    have hl : ((ms.take k).length : Int) < size := by
      rw [List.length_take]
      omega
    rw [PostMetricAll_of_distinct_lt PostMetrics size adapter (ms.take k) hp hl]
    exact ⟨rfl, rfl⟩
  · rcases List.eq_nil_or_concat ms with rfl | ⟨l, m, rfl⟩
    · simp at hlen
      omega
    · rw [List.concat_eq_append] at hlen hdistinct ⊢
      rw [List.pairwise_append] at hdistinct
      obtain ⟨hl, _, hlm⟩ := hdistinct
      have hlen2 : (l.length : Int) < size := by
        simp at hlen
        omega
      have hnot : ¬ (((l ++ [m]).length : Nat) : Int) < size := by omega
      rw [PostMetricAll_append, PostMetricAll_of_distinct_lt PostMetrics size adapter l hl hlen2]
      unfold metricsBuffer.PostMetric
      rw [addMetric_of_no_match]
      · simp only
        rw [if_neg hnot]
        simp [postMetrics_posted]
      · intro b hb
        exact hlm b hb m (List.mem_singleton_self m)

/-- C4 with capacity 2 and two metrics of different names. -/
theorem PostMetric_flushes_at_capacity_witness :
    (1 : Int) ≤ 2 ∧ (([requestsMetric, latencyMetric].length : Nat) : Int) = 2 ∧
    [requestsMetric, latencyMetric].Pairwise (fun a b => sameIdentity a b = false) ∧
    ((NewMetricsBuffer 2 () : metricsBuffer Float String Unit).PostMetricAll acceptingAdapter
      [requestsMetric, latencyMetric]).posted = [[requestsMetric, latencyMetric]] ∧
    ((NewMetricsBuffer 2 () : metricsBuffer Float String Unit).PostMetricAll acceptingAdapter
      [requestsMetric, latencyMetric]).metrics = [] :=
  have hd : [requestsMetric, latencyMetric].Pairwise (fun a b => sameIdentity a b = false) :=
    by decide
  ⟨by decide, by decide, hd,
    (PostMetric_flushes_at_capacity acceptingAdapter () 2 [requestsMetric, latencyMetric]
      (by decide) (by decide) hd).2⟩

/-- C5, as the code has it. With capacity at least 1, in every state the buffer
reaches from the empty buffer by `PostMetric` calls, posting a metric that has
the name of a buffered metric and labels that are nil like the labels of that
metric, or allocated like them with the same key set and the same value under
every key, calls the adapter once, with the batch that holds the incoming metric
alone, and leaves the buffered metrics as they were. -/
theorem PostMetric_duplicate (PostMetrics : MetricAdapter F E S) (adapter : S) (size : Int)
    (hsize : 1 ≤ size) (posts : List (stackdriver.Metric F)) (metric : stackdriver.Metric F)
    (hmatch : ∃ b ∈ ((NewMetricsBuffer size adapter : metricsBuffer F E S).PostMetricAll
      PostMetrics posts).metrics,
        b.Name = metric.Name ∧
          ((b.Labels = none ∧ metric.Labels = none) ∨
            ∃ la lb, b.Labels = some la ∧ metric.Labels = some lb ∧
              ∀ k, la.get? k = lb.get? k)) :
    (((NewMetricsBuffer size adapter : metricsBuffer F E S).PostMetricAll PostMetrics
        posts).PostMetric PostMetrics metric).posted =
      ((NewMetricsBuffer size adapter : metricsBuffer F E S).PostMetricAll PostMetrics
        posts).posted ++ [[metric]] ∧
    (((NewMetricsBuffer size adapter : metricsBuffer F E S).PostMetricAll PostMetrics
        posts).PostMetric PostMetrics metric).metrics =
      ((NewMetricsBuffer size adapter : metricsBuffer F E S).PostMetricAll PostMetrics
        posts).metrics := by
  have hlt := PostMetricAll_length_lt PostMetrics size adapter hsize posts (E := E)
  have hs := PostMetricAll_size PostMetrics
    (NewMetricsBuffer size adapter : metricsBuffer F E S) posts
  generalize (NewMetricsBuffer size adapter : metricsBuffer F E S).PostMetricAll PostMetrics
    posts = mb at hmatch hlt hs ⊢
  have hs2 : mb.size = size := hs
  have hsame : ∃ b ∈ mb.metrics, sameIdentity b metric = true := by
    obtain ⟨b, hb, hname, hlabels⟩ := hmatch
    refine ⟨b, hb, ?_⟩
    unfold sameIdentity
    rw [Bool.and_eq_true, beq_iff_eq]
    exact ⟨hname, (DeepEqual_iff b.Labels metric.Labels).2 hlabels⟩
  unfold metricsBuffer.PostMetric
  rw [addMetric_of_match PostMetrics mb metric hsame]
  simp only [postMetrics_metrics, postMetrics_size, hs2]
  rw [if_pos hlt]
  exact ⟨postMetrics_posted PostMetrics mb [metric], postMetrics_metrics PostMetrics mb [metric]⟩

/-- C5 as amended, with capacity 3: after `requestsMetric` and `latencyMetric`, a
second reading of `requestsMetric` goes out alone and the two stay buffered. -/
theorem PostMetric_duplicate_witness :
    (1 : Int) ≤ 3 ∧
    (∃ b ∈ ((NewMetricsBuffer 3 () : metricsBuffer Float String Unit).PostMetricAll
      acceptingAdapter [requestsMetric, latencyMetric]).metrics,
        b.Name = requestsMetricAgain.Name ∧
          ((b.Labels = none ∧ requestsMetricAgain.Labels = none) ∨
            ∃ la lb, b.Labels = some la ∧ requestsMetricAgain.Labels = some lb ∧
              ∀ k, la.get? k = lb.get? k)) ∧
    (((NewMetricsBuffer 3 () : metricsBuffer Float String Unit).PostMetricAll acceptingAdapter
      [requestsMetric, latencyMetric]).PostMetric acceptingAdapter requestsMetricAgain).posted =
      [[requestsMetricAgain]] ∧
    (((NewMetricsBuffer 3 () : metricsBuffer Float String Unit).PostMetricAll acceptingAdapter
      [requestsMetric, latencyMetric]).PostMetric acceptingAdapter requestsMetricAgain).metrics =
      [requestsMetric, latencyMetric] :=
  have hm : ∃ b ∈ ((NewMetricsBuffer 3 () : metricsBuffer Float String Unit).PostMetricAll
      acceptingAdapter [requestsMetric, latencyMetric]).metrics,
        b.Name = requestsMetricAgain.Name ∧
          ((b.Labels = none ∧ requestsMetricAgain.Labels = none) ∨
            ∃ la lb, b.Labels = some la ∧ requestsMetricAgain.Labels = some lb ∧
              ∀ k, la.get? k = lb.get? k) :=
    ⟨requestsMetric, List.Mem.head _, rfl, Or.inr ⟨_, _, rfl, rfl, fun _ => rfl⟩⟩
  ⟨by decide, hm,
    PostMetric_duplicate acceptingAdapter () 3 (by decide) [requestsMetric, latencyMetric]
      requestsMetricAgain hm⟩

/-- C5 fails as stated: with capacity 3 and a metric with the nil label map
buffered, an incoming metric of the same name with an allocated empty map has the
same name and the same label mapping, and `PostMetric` appends it and calls the
adapter not at all. -/
theorem PostMetric_duplicate_nil_empty_counterexample :
    (1 : Int) ≤ 3 ∧
    (∃ b ∈ ((NewMetricsBuffer 3 () : metricsBuffer Float String Unit).PostMetricAll
      acceptingAdapter [nilLabelsMetric]).metrics,
        b.Name = emptyLabelsMetric.Name ∧
          ∀ k, GoMap.get? b.Labels k = GoMap.get? emptyLabelsMetric.Labels k) ∧
    ((NewMetricsBuffer 3 () : metricsBuffer Float String Unit).PostMetricAll acceptingAdapter
      [nilLabelsMetric]).posted = [] ∧
    ((NewMetricsBuffer 3 () : metricsBuffer Float String Unit).PostMetricAll acceptingAdapter
      [nilLabelsMetric]).metrics = [nilLabelsMetric] ∧
    (((NewMetricsBuffer 3 () : metricsBuffer Float String Unit).PostMetricAll acceptingAdapter
      [nilLabelsMetric]).PostMetric acceptingAdapter emptyLabelsMetric).posted = [] ∧
    (((NewMetricsBuffer 3 () : metricsBuffer Float String Unit).PostMetricAll acceptingAdapter
      [nilLabelsMetric]).PostMetric acceptingAdapter emptyLabelsMetric).metrics =
      [nilLabelsMetric, emptyLabelsMetric] ∧
    ¬ ((((NewMetricsBuffer 3 () : metricsBuffer Float String Unit).PostMetricAll
        acceptingAdapter [nilLabelsMetric]).PostMetric acceptingAdapter
          emptyLabelsMetric).posted =
        ((NewMetricsBuffer 3 () : metricsBuffer Float String Unit).PostMetricAll
          acceptingAdapter [nilLabelsMetric]).posted ++ [[emptyLabelsMetric]] ∧
      (((NewMetricsBuffer 3 () : metricsBuffer Float String Unit).PostMetricAll
        acceptingAdapter [nilLabelsMetric]).PostMetric acceptingAdapter
          emptyLabelsMetric).metrics =
        ((NewMetricsBuffer 3 () : metricsBuffer Float String Unit).PostMetricAll
          acceptingAdapter [nilLabelsMetric]).metrics) :=
  ⟨by decide,
    ⟨nilLabelsMetric, List.Mem.head _, rfl, fun k => by
      simp [GoMap.get?, nilLabelsMetric, emptyLabelsMetric, LabelMap.get?_empty]⟩,
    rfl, rfl, rfl, rfl,
    fun h => absurd (congrArg List.length h.1) (by decide)⟩

/-! ### The identity match -/

/-- C12, as the code has it. The buffer treats an incoming metric as matching a
buffered one exactly when the names are equal and the label maps are either both
nil or both allocated with the same key set and the same value under every key;
the values of the two metrics play no part. -/
theorem sameIdentity_iff (metric newMetric : stackdriver.Metric F) :
    (sameIdentity metric newMetric = true ↔
      metric.Name = newMetric.Name ∧
        ((metric.Labels = none ∧ newMetric.Labels = none) ∨
          ∃ la lb, metric.Labels = some la ∧ newMetric.Labels = some lb ∧
            ∀ k, la.get? k = lb.get? k)) ∧
    (∀ v w : F, sameIdentity { metric with Value := v } { newMetric with Value := w } =
      sameIdentity metric newMetric) := by
  refine ⟨?_, ?_⟩
  · rw [← DeepEqual_iff]
    simp [sameIdentity]
  · intro v w
    rfl

/-- C12 fails as stated: a metric with a nil label map and a metric of the same
name with an allocated empty one have equal names and read the same under every
key, and the buffer does not treat them as matching. -/
theorem sameIdentity_nil_empty_counterexample :
    ¬ (sameIdentity nilLabelsMetric emptyLabelsMetric = true ↔
      nilLabelsMetric.Name = emptyLabelsMetric.Name ∧
        ∀ k, GoMap.get? nilLabelsMetric.Labels k = GoMap.get? emptyLabelsMetric.Labels k) := by
  intro h
  have hs : sameIdentity nilLabelsMetric emptyLabelsMetric = false := by decide
  have hr : nilLabelsMetric.Name = emptyLabelsMetric.Name ∧
      ∀ k, GoMap.get? nilLabelsMetric.Labels k = GoMap.get? emptyLabelsMetric.Labels k := by
    refine ⟨rfl, ?_⟩
    intro k
    simp [GoMap.get?, nilLabelsMetric, emptyLabelsMetric, LabelMap.get?_empty]
  rw [h.2 hr] at hs
  exact Bool.noConfusion hs

/-! ### Invariants of the buffer -/

theorem addMetric_cases (PostMetrics : MetricAdapter F E S) (mb : metricsBuffer F E S)
    (m : stackdriver.Metric F) :
    ((∃ b ∈ mb.metrics, sameIdentity b m = true) ∧
        mb.addMetric PostMetrics m = mb.postMetrics PostMetrics [m]) ∨
    ((∀ b ∈ mb.metrics, sameIdentity b m = false) ∧
        mb.addMetric PostMetrics m = { mb with metrics := mb.metrics ++ [m] }) := by
  by_cases h : ∃ b ∈ mb.metrics, sameIdentity b m = true
  · exact Or.inl ⟨h, addMetric_of_match PostMetrics mb m h⟩
  · have h2 : ∀ b ∈ mb.metrics, sameIdentity b m = false := by
      intro b hb
      cases hs : sameIdentity b m
      · rfl
      · exact absurd ⟨b, hb, hs⟩ h
    exact Or.inr ⟨h2, addMetric_of_no_match PostMetrics mb m h2⟩

theorem addMetric_length_le (PostMetrics : MetricAdapter F E S) (mb : metricsBuffer F E S)
    (m : stackdriver.Metric F) :
    (mb.addMetric PostMetrics m).metrics.length ≤ mb.metrics.length + 1 := by
  rcases addMetric_cases PostMetrics mb m with ⟨_, h⟩ | ⟨_, h⟩
  · rw [h, postMetrics_metrics]
    omega
  · rw [h]
    simp

/-- C11. With capacity `size` at least 1, however many metrics have been posted to
a new buffer, the buffer holds fewer than `size` metrics when a `PostMetric` call
returns, and inside the next call, after `addMetric`, it holds at most `size`. -/
theorem buffer_never_exceeds_size (PostMetrics : MetricAdapter F E S) (adapter : S) (size : Int)
    (hsize : 1 ≤ size) (posts : List (stackdriver.Metric F)) :
    ((((NewMetricsBuffer size adapter : metricsBuffer F E S).PostMetricAll PostMetrics
      posts).metrics.length : Nat) : Int) < size ∧
    (∀ m : stackdriver.Metric F,
      (((((NewMetricsBuffer size adapter : metricsBuffer F E S).PostMetricAll PostMetrics
        posts).addMetric PostMetrics m).metrics.length : Nat) : Int) ≤ size) := by
  have hlt := PostMetricAll_length_lt PostMetrics size adapter hsize posts (E := E)
  refine ⟨hlt, ?_⟩
  intro m
  have hle := addMetric_length_le PostMetrics
    ((NewMetricsBuffer size adapter : metricsBuffer F E S).PostMetricAll PostMetrics posts) m
  omega

/-- C11 with capacity 2 after the posts of `requestsMetric`, `latencyMetric` and
`requestsMetric` again. -/
theorem buffer_never_exceeds_size_witness :
    (1 : Int) ≤ 2 ∧
    ((((NewMetricsBuffer 2 () : metricsBuffer Float String Unit).PostMetricAll acceptingAdapter
      [requestsMetric, latencyMetric, requestsMetricAgain]).metrics.length : Nat) : Int) < 2 ∧
    (∀ m : stackdriver.Metric Float,
      (((((NewMetricsBuffer 2 () : metricsBuffer Float String Unit).PostMetricAll
        acceptingAdapter [requestsMetric, latencyMetric, requestsMetricAgain]).addMetric
          acceptingAdapter m).metrics.length : Nat) : Int) ≤ 2) :=
  ⟨by decide,
    buffer_never_exceeds_size acceptingAdapter () 2 (by decide)
      [requestsMetric, latencyMetric, requestsMetricAgain]⟩

theorem PostMetric_pairwise (PostMetrics : MetricAdapter F E S) (mb : metricsBuffer F E S)
    (m : stackdriver.Metric F)
    (h : mb.metrics.Pairwise (fun a b => sameIdentity a b = false)) :
    (mb.PostMetric PostMetrics m).metrics.Pairwise (fun a b => sameIdentity a b = false) := by
  unfold metricsBuffer.PostMetric
  simp only
  split_ifs
  · rcases addMetric_cases PostMetrics mb m with ⟨_, he⟩ | ⟨hno, he⟩
    · rw [he, postMetrics_metrics]
      exact h
    · rw [he]
      simp only
      rw [List.pairwise_append]
      refine ⟨h, List.pairwise_singleton _ _, ?_⟩
      intro a ha b hb
      rw [List.mem_singleton] at hb
      rw [hb]
      exact hno a ha
  · exact List.Pairwise.nil

theorem PostMetric_perm (PostMetrics : MetricAdapter F E S) (mb : metricsBuffer F E S)
    (m : stackdriver.Metric F) :
    List.Perm ((mb.PostMetric PostMetrics m).posted.flatten ++ (mb.PostMetric PostMetrics m).metrics)
      (mb.posted.flatten ++ mb.metrics ++ [m]) := by
  unfold metricsBuffer.PostMetric
  simp only
  split_ifs
  · rcases addMetric_cases PostMetrics mb m with ⟨_, he⟩ | ⟨_, he⟩
    · rw [he, postMetrics_metrics, postMetrics_posted]
      simp only [List.flatten_append, List.flatten_cons, List.flatten_nil, List.append_nil,
        List.append_assoc]
      exact List.Perm.append_left _ List.perm_append_comm
    · rw [he]
      simp
  · rcases addMetric_cases PostMetrics mb m with ⟨_, he⟩ | ⟨_, he⟩
    · rw [he]
      simp only [postMetrics_metrics, postMetrics_posted, List.flatten_append,
        List.flatten_cons, List.flatten_nil, List.append_nil, List.append_assoc]
      exact List.Perm.append_left _ List.perm_append_comm
    · rw [he]
      simp [postMetrics_posted]

/-- C19. For every capacity and every sequence of metrics posted to a new buffer,
the metrics of all batches handed to the adapter together with the metrics still
buffered are, as a multiset, the metrics posted. -/
theorem PostMetric_loses_nothing (PostMetrics : MetricAdapter F E S) (adapter : S) (size : Int)
    (posts : List (stackdriver.Metric F)) :
    ((((NewMetricsBuffer size adapter : metricsBuffer F E S).PostMetricAll PostMetrics
        posts).posted.flatten ++
      ((NewMetricsBuffer size adapter : metricsBuffer F E S).PostMetricAll PostMetrics
        posts).metrics : List (stackdriver.Metric F)) : Multiset (stackdriver.Metric F)) =
      (posts : Multiset (stackdriver.Metric F)) := by
  rw [Multiset.coe_eq_coe]
  induction posts using List.reverseRecOn with
  | nil => simp [metricsBuffer.PostMetricAll, NewMetricsBuffer]
  | append_singleton l m ih =>
    rw [PostMetricAll_append]
    exact (PostMetric_perm PostMetrics _ m).trans (List.Perm.append_right [m] ih)

/-- C20, as the code has it. For every capacity and every sequence of metrics posted
to a new buffer, no two entries of the buffer match: two buffered metrics never
have equal names together with labels that `reflect.DeepEqual` reports equal. So
two buffered metrics of one name whose label maps are both allocated differ in
what they hold under some key, and at most one buffered metric of a name has the
nil map. -/
theorem buffer_pairwise_distinct (PostMetrics : MetricAdapter F E S) (adapter : S) (size : Int)
    (posts : List (stackdriver.Metric F)) :
    ((NewMetricsBuffer size adapter : metricsBuffer F E S).PostMetricAll PostMetrics
      posts).metrics.Pairwise
        (fun a b => ¬ (a.Name = b.Name ∧ DeepEqual a.Labels b.Labels = true)) ∧
    ((NewMetricsBuffer size adapter : metricsBuffer F E S).PostMetricAll PostMetrics
      posts).metrics.Pairwise
        (fun a b => a.Name = b.Name →
          (∀ la lb, a.Labels = some la → b.Labels = some lb → ∃ k, la.get? k ≠ lb.get? k) ∧
          ¬ (a.Labels = none ∧ b.Labels = none)) := by
  have h : ((NewMetricsBuffer size adapter : metricsBuffer F E S).PostMetricAll PostMetrics
      posts).metrics.Pairwise (fun a b => sameIdentity a b = false) := by
    induction posts using List.reverseRecOn with
    | nil => exact List.Pairwise.nil
    | append_singleton l m ih =>
      rw [PostMetricAll_append]
      exact PostMetric_pairwise PostMetrics _ m ih
  refine ⟨h.imp ?_, h.imp ?_⟩
  · intro a b hab hn
    simp [sameIdentity, hn.1, hn.2] at hab
  · intro a b hab hname
    have hd : DeepEqual a.Labels b.Labels = false := by
      simpa [sameIdentity, hname] using hab
    refine ⟨?_, ?_⟩
    · intro la lb hla hlb
      by_contra hall
      have hext : ∀ k, la.get? k = lb.get? k := by
        intro k
        by_contra hk
        exact hall ⟨k, hk⟩
      have ht : DeepEqual a.Labels b.Labels = true := by
        rw [hla, hlb]
        exact (DeepEqual_some_iff la lb).2 hext
      rw [ht] at hd
      exact Bool.noConfusion hd
    · rintro ⟨hna, hnb⟩
      rw [hna, hnb] at hd
      simp [DeepEqual] at hd

/-- C20 fails as stated: with capacity 3, after a metric with the nil label map
and a metric of the same name with an allocated empty map the buffer holds both,
two entries with equal names and equal label mappings. -/
theorem buffer_nil_empty_counterexample :
    ((NewMetricsBuffer 3 () : metricsBuffer Float String Unit).PostMetricAll acceptingAdapter
      [nilLabelsMetric, emptyLabelsMetric]).metrics = [nilLabelsMetric, emptyLabelsMetric] ∧
    nilLabelsMetric.Name = emptyLabelsMetric.Name ∧
    (∀ k, GoMap.get? nilLabelsMetric.Labels k = GoMap.get? emptyLabelsMetric.Labels k) ∧
    ¬ ((NewMetricsBuffer 3 () : metricsBuffer Float String Unit).PostMetricAll
      acceptingAdapter [nilLabelsMetric, emptyLabelsMetric]).metrics.Pairwise
        (fun a b => ¬ (a.Name = b.Name ∧
          ∀ k, GoMap.get? a.Labels k = GoMap.get? b.Labels k)) := by
  have hk : ∀ k, GoMap.get? nilLabelsMetric.Labels k = GoMap.get? emptyLabelsMetric.Labels k := by
    intro k
    simp [GoMap.get?, nilLabelsMetric, emptyLabelsMetric, LabelMap.get?_empty]
  have hb : ((NewMetricsBuffer 3 () : metricsBuffer Float String Unit).PostMetricAll
      acceptingAdapter [nilLabelsMetric, emptyLabelsMetric]).metrics =
      [nilLabelsMetric, emptyLabelsMetric] := rfl
  refine ⟨hb, rfl, hk, ?_⟩
  rw [hb]
  intro hp
  rw [List.pairwise_cons] at hp
  exact hp.1 emptyLabelsMetric (List.mem_singleton_self _) ⟨rfl, hk⟩

/-! ### Errors of the adapter -/

theorem postMetrics_errs (PostMetrics : MetricAdapter F E S) (mb : metricsBuffer F E S)
    (batch : List (stackdriver.Metric F)) :
    (mb.postMetrics PostMetrics batch).errs =
      mb.errs ++ (adapterResults PostMetrics mb.adapter [batch]).reduceOption := by
  unfold metricsBuffer.postMetrics adapterResults adapterResults
  simp only
  cases (PostMetrics mb.adapter batch).2 <;> simp [List.reduceOption]

theorem postMetrics_adapter (PostMetrics : MetricAdapter F E S) (mb : metricsBuffer F E S)
    (batch : List (stackdriver.Metric F)) :
    (mb.postMetrics PostMetrics batch).adapter = (PostMetrics mb.adapter batch).1 := by
  unfold metricsBuffer.postMetrics
  simp only
  split <;> rfl

theorem adapterResults_pair (PostMetrics : MetricAdapter F E S) (adapter : S)
    (first second : List (stackdriver.Metric F)) :
    (adapterResults PostMetrics adapter [first, second]).reduceOption =
      (adapterResults PostMetrics adapter [first]).reduceOption ++
        (adapterResults PostMetrics (PostMetrics adapter first).1 [second]).reduceOption := by
  unfold adapterResults adapterResults adapterResults
  cases (PostMetrics adapter first).2 <;> simp [List.reduceOption]

/-- C13. Whatever the buffer, the incoming metric and the adapter, the error values
a `PostMetric` call hands to the error channel are the errors the adapter
returned in the calls made during it, one for each call that returned an error,
in the order of the calls, and nothing for a call that returned nil. The call
yields the next buffer and no error of its own. -/
theorem PostMetric_hands_over_errors (PostMetrics : MetricAdapter F E S)
    (mb : metricsBuffer F E S) (m : stackdriver.Metric F) :
    ∃ calls : List (List (stackdriver.Metric F)),
      (mb.PostMetric PostMetrics m).posted = mb.posted ++ calls ∧
      (mb.PostMetric PostMetrics m).errs =
        mb.errs ++ (adapterResults PostMetrics mb.adapter calls).reduceOption := by
  unfold metricsBuffer.PostMetric
  simp only
  rcases addMetric_cases PostMetrics mb m with ⟨_, he⟩ | ⟨_, he⟩
  · rw [he]
    split_ifs
    · exact ⟨[[m]], postMetrics_posted PostMetrics mb [m], postMetrics_errs PostMetrics mb [m]⟩
    · refine ⟨[[m], mb.metrics], ?_, ?_⟩
      · simp [postMetrics_posted, postMetrics_metrics]
      · simp only [postMetrics_errs, postMetrics_metrics, postMetrics_adapter,
          adapterResults_pair, List.append_assoc]
  · rw [he]
    split_ifs
    · refine ⟨[], ?_, ?_⟩
      · simp
      · simp [adapterResults, List.reduceOption]
    · exact ⟨[mb.metrics ++ [m]], postMetrics_posted PostMetrics _ _,
        postMetrics_errs PostMetrics _ _⟩

/-- C14. The metrics a buffer holds after `PostMetric` are the same whatever the
adapter and whatever it returns: two buffers of the same capacity holding the
same metrics hold the same metrics after the post, each with its own adapter.
After a capacity flush the buffer is empty, whether or not the adapter call
failed. -/
theorem PostMetric_metrics_whatever_the_adapter {E2 S2 : Type}
    (PostMetrics : MetricAdapter F E S) (PostMetrics2 : MetricAdapter F E2 S2)
    (mb : metricsBuffer F E S) (mb2 : metricsBuffer F E2 S2) (m : stackdriver.Metric F)
    (hsize : mb2.size = mb.size) (hmetrics : mb2.metrics = mb.metrics) :
    (mb2.PostMetric PostMetrics2 m).metrics = (mb.PostMetric PostMetrics m).metrics ∧
    (¬ (((mb.addMetric PostMetrics m).metrics.length : Nat) : Int) < mb.size →
      (mb.PostMetric PostMetrics m).metrics = []) := by
  have key : ∀ {E3 S3 : Type} (P : MetricAdapter F E3 S3) (b : metricsBuffer F E3 S3),
      (b.PostMetric P m).metrics =
        if ((if b.metrics.any (fun x => sameIdentity x m) then b.metrics
            else b.metrics ++ [m]).length : Int) < b.size
        then (if b.metrics.any (fun x => sameIdentity x m) then b.metrics else b.metrics ++ [m])
        else [] := by
    intro E3 S3 P b
    have hadd : (b.addMetric P m).metrics =
        if b.metrics.any (fun x => sameIdentity x m) then b.metrics else b.metrics ++ [m] := by
      rcases addMetric_cases P b m with ⟨hm, he⟩ | ⟨hm, he⟩
      · have hany : b.metrics.any (fun x => sameIdentity x m) = true := by
          rw [List.any_eq_true]
          exact hm
        rw [he, postMetrics_metrics, hany]
        rfl
      · have hany : b.metrics.any (fun x => sameIdentity x m) = false := by
          rw [List.any_eq_false]
          intro x hx
          simp [hm x hx]
        rw [he, hany]
        rfl
    unfold metricsBuffer.PostMetric
    simp only
    rw [addMetric_size, hadd]
    split_ifs with h1 h2 h3 <;> simp [postMetrics_metrics, hadd, h1]
  refine ⟨?_, ?_⟩
  · rw [key PostMetrics2 mb2, key PostMetrics mb, hsize, hmetrics]
  · intro h
    unfold metricsBuffer.PostMetric
    simp only
    rw [addMetric_size, if_neg h]

/-- C14 with capacity 1: the post that fills the buffer empties it with the adapter
that fails as with the adapter that accepts. -/
theorem PostMetric_metrics_whatever_the_adapter_witness :
    (NewMetricsBuffer 1 () : metricsBuffer Float String Unit).size =
      (NewMetricsBuffer 1 () : metricsBuffer Float String Unit).size ∧
    (NewMetricsBuffer 1 () : metricsBuffer Float String Unit).metrics =
      (NewMetricsBuffer 1 () : metricsBuffer Float String Unit).metrics ∧
    ((NewMetricsBuffer 1 () : metricsBuffer Float String Unit).PostMetric failingAdapter
      requestsMetric).metrics =
      ((NewMetricsBuffer 1 () : metricsBuffer Float String Unit).PostMetric acceptingAdapter
        requestsMetric).metrics ∧
    ((NewMetricsBuffer 1 () : metricsBuffer Float String Unit).PostMetric failingAdapter
      requestsMetric).metrics = [] :=
  have w := PostMetric_metrics_whatever_the_adapter acceptingAdapter failingAdapter
    (NewMetricsBuffer 1 ()) (NewMetricsBuffer 1 ()) requestsMetric rfl rfl
  have w2 := PostMetric_metrics_whatever_the_adapter failingAdapter failingAdapter
    (NewMetricsBuffer 1 ()) (NewMetricsBuffer 1 ()) requestsMetric rfl rfl
  ⟨rfl, rfl, w.1, w2.2 (by decide)⟩

/-! ### The specified procedure -/

theorem PostMetric_empty_or_below (PostMetrics : MetricAdapter F E S) (mb : metricsBuffer F E S)
    (m : stackdriver.Metric F) :
    (mb.PostMetric PostMetrics m).metrics = [] ∨
      (((mb.PostMetric PostMetrics m).metrics.length : Nat) : Int) <
        (mb.PostMetric PostMetrics m).size := by
  rw [PostMetric_size]
  unfold metricsBuffer.PostMetric
  simp only
  split_ifs with h
  · rw [addMetric_size] at h
    exact Or.inr h
  · exact Or.inl rfl

theorem PostMetricAll_empty_or_below (PostMetrics : MetricAdapter F E S) (adapter : S)
    (size : Int) (posts : List (stackdriver.Metric F)) :
    ((NewMetricsBuffer size adapter : metricsBuffer F E S).PostMetricAll PostMetrics
        posts).metrics = [] ∨
      ((((NewMetricsBuffer size adapter : metricsBuffer F E S).PostMetricAll PostMetrics
        posts).metrics.length : Nat) : Int) <
        ((NewMetricsBuffer size adapter : metricsBuffer F E S).PostMetricAll PostMetrics
          posts).size := by
  induction posts using List.reverseRecOn with
  | nil => exact Or.inl rfl
  | append_singleton l m _ =>
    rw [PostMetricAll_append]
    exact PostMetric_empty_or_below PostMetrics _ m

theorem GoMap.get?_eq_mapping (labels : GoMap) (k : String) :
    GoMap.get? labels k = (GoMap.mapping labels).get? k := by
  cases labels with
  | none => simp [GoMap.get?, GoMap.mapping, LabelMap.get?_empty]
  | some l => rfl

theorem specifiedIdentity_iff (a b : stackdriver.Metric F) :
    specifiedIdentity a b = true ↔
      a.Name = b.Name ∧ ∀ k, GoMap.get? a.Labels k = GoMap.get? b.Labels k := by
  have hd : specifiedIdentity a b =
      (a.Name == b.Name &&
        DeepEqual (some (GoMap.mapping a.Labels)) (some (GoMap.mapping b.Labels))) := rfl
  rw [hd, Bool.and_eq_true, beq_iff_eq, DeepEqual_some_iff]
  simp only [GoMap.get?_eq_mapping]

theorem specifiedIdentity_eq_sameIdentity (a b : stackdriver.Metric F)
    (hab : a.Name = b.Name → a.Labels = none → ∀ l, b.Labels = some l → l.entries ≠ [])
    (hba : b.Name = a.Name → b.Labels = none → ∀ l, a.Labels = some l → l.entries ≠ []) :
    specifiedIdentity a b = sameIdentity a b := by
  unfold specifiedIdentity sameIdentity
  by_cases hn : a.Name = b.Name
  · cases ha : a.Labels with
    | none =>
      cases hb : b.Labels with
      | none => simp [GoMap.mapping, DeepEqual]
      | some lb =>
        have hne := hab hn ha lb hb
        have hlen : ¬ (0 = lb.entries.length) := by
          intro h0
          exact hne (List.eq_nil_of_length_eq_zero h0.symm)
        simp [GoMap.mapping, DeepEqual, hlen]
    | some la =>
      cases hb : b.Labels with
      | none =>
        have hne := hba hn.symm hb la ha
        have hlen : ¬ (la.entries.length = 0) := by
          intro h0
          exact hne (List.eq_nil_of_length_eq_zero h0)
        simp [GoMap.mapping, DeepEqual, hlen]
      | some lb => rfl
  · have hf : (a.Name == b.Name) = false := by simp [hn]
    rw [hf]
    rfl

theorem any_specifiedIdentity_eq (l : List (stackdriver.Metric F)) (m : stackdriver.Metric F)
    (h : ∀ b ∈ l, specifiedIdentity b m = sameIdentity b m) :
    l.any (fun b => specifiedIdentity b m) = l.any (fun b => sameIdentity b m) := by
  induction l with
  | nil => rfl
  | cons x rest ih =>
    rw [List.any_cons, List.any_cons, h x (List.mem_cons_self x rest),
      ih (fun b hb => h b (List.mem_cons_of_mem x hb))]

theorem PostMetric_metrics_subset (PostMetrics : MetricAdapter F E S) (mb : metricsBuffer F E S)
    (m : stackdriver.Metric F) :
    ∀ x ∈ (mb.PostMetric PostMetrics m).metrics, x ∈ mb.metrics ∨ x = m := by
  intro x hx
  unfold metricsBuffer.PostMetric at hx
  simp only at hx
  split_ifs at hx
  · rcases addMetric_cases PostMetrics mb m with ⟨_, he⟩ | ⟨_, he⟩
    · rw [he, postMetrics_metrics] at hx
      exact Or.inl hx
    · rw [he] at hx
      simp only [List.mem_append, List.mem_singleton] at hx
      exact hx
  · exact absurd hx (List.not_mem_nil x)

theorem PostMetricAll_metrics_subset (PostMetrics : MetricAdapter F E S) (adapter : S)
    (size : Int) (posts : List (stackdriver.Metric F)) :
    ∀ x ∈ ((NewMetricsBuffer size adapter : metricsBuffer F E S).PostMetricAll PostMetrics
      posts).metrics, x ∈ posts := by
  induction posts using List.reverseRecOn with
  | nil =>
    intro x hx
    exact absurd hx (List.not_mem_nil x)
  | append_singleton l m ih =>
    intro x hx
    rw [PostMetricAll_append] at hx
    rcases PostMetric_metrics_subset PostMetrics _ m x hx with h | h
    · exact List.mem_append_left [m] (ih x h)
    · rw [h]
      exact List.mem_append_right l (List.mem_singleton_self m)

theorem PostMetric_eq_specified (PostMetrics : MetricAdapter F E S) (mb : metricsBuffer F E S)
    (m : stackdriver.Metric F)
    (h : mb.metrics = [] ∨ ((mb.metrics.length : Nat) : Int) < mb.size)
    (hid : ∀ b ∈ mb.metrics, specifiedIdentity b m = sameIdentity b m) :
    mb.PostMetric PostMetrics m = mb.specifiedPostMetric PostMetrics m := by
  unfold metricsBuffer.PostMetric metricsBuffer.specifiedPostMetric
  simp only
  rw [any_specifiedIdentity_eq mb.metrics m hid]
  rcases addMetric_cases PostMetrics mb m with ⟨hm, he⟩ | ⟨hm, he⟩
  · have hany : mb.metrics.any (fun x => sameIdentity x m) = true := by
      rw [List.any_eq_true]
      exact hm
    have hlt : ((mb.metrics.length : Nat) : Int) < mb.size := by
      rcases h with h | h
      · obtain ⟨b, hb, _⟩ := hm
        rw [h] at hb
        exact absurd hb (List.not_mem_nil b)
      · exact h
    rw [he, hany, postMetrics_metrics, postMetrics_size, if_pos hlt, if_pos rfl]
  · have hany : mb.metrics.any (fun x => sameIdentity x m) = false := by
      rw [List.any_eq_false]
      intro x hx
      simp [hm x hx]
    rw [he, hany]
    simp only [Bool.false_eq_true, if_false]
    by_cases hc : (((mb.metrics ++ [m]).length : Nat) : Int) < mb.size
    · rw [if_pos hc, if_neg (not_le.mpr hc)]
    · rw [if_neg hc, if_pos (not_lt.mp hc)]

theorem specifiedPostMetricAll_append (PostMetrics : MetricAdapter F E S)
    (mb : metricsBuffer F E S) (l : List (stackdriver.Metric F)) (m : stackdriver.Metric F) :
    mb.specifiedPostMetricAll PostMetrics (l ++ [m]) =
      (mb.specifiedPostMetricAll PostMetrics l).specifiedPostMetric PostMetrics m := by
  simp [metricsBuffer.specifiedPostMetricAll, List.foldl_append]

/-- C18, as the code has it. For every capacity and every sequence of metrics posted
to a new buffer in which no metric with the nil label map shares its name with a
metric whose label map is allocated and empty, `PostMetric`, which tests the
capacity after every call, and the specified procedure, which matches by name
and label mapping and tests the capacity after an append only, end in the same
state: the same batches handed to the adapter in the same order, the same
buffered metrics, the same errors handed over and the same adapter state. For
every sequence of posts, a call in which the buffer finds a match hands over the
batch of one and no other and leaves the buffered metrics as they were. -/
theorem PostMetric_refines_specified (PostMetrics : MetricAdapter F E S) (adapter : S)
    (size : Int) (posts : List (stackdriver.Metric F))
    (hposts : ∀ a ∈ posts, ∀ b ∈ posts, a.Name = b.Name → a.Labels = none →
      ∀ l, b.Labels = some l → l.entries ≠ []) :
    (NewMetricsBuffer size adapter : metricsBuffer F E S).PostMetricAll PostMetrics posts =
      (NewMetricsBuffer size adapter : metricsBuffer F E S).specifiedPostMetricAll PostMetrics
        posts ∧
    (∀ m : stackdriver.Metric F,
      (∃ b ∈ ((NewMetricsBuffer size adapter : metricsBuffer F E S).PostMetricAll PostMetrics
        posts).metrics, sameIdentity b m = true) →
      (((NewMetricsBuffer size adapter : metricsBuffer F E S).PostMetricAll PostMetrics
        posts).PostMetric PostMetrics m).posted =
        ((NewMetricsBuffer size adapter : metricsBuffer F E S).PostMetricAll PostMetrics
          posts).posted ++ [[m]] ∧
      (((NewMetricsBuffer size adapter : metricsBuffer F E S).PostMetricAll PostMetrics
        posts).PostMetric PostMetrics m).metrics =
        ((NewMetricsBuffer size adapter : metricsBuffer F E S).PostMetricAll PostMetrics
          posts).metrics) := by
  refine ⟨?_, ?_⟩
  · induction posts using List.reverseRecOn with
    | nil => rfl
    | append_singleton l m ih =>
      have hl : ∀ a ∈ l, ∀ b ∈ l, a.Name = b.Name → a.Labels = none →
          ∀ lb, b.Labels = some lb → lb.entries ≠ [] :=
        fun a ha b hb => hposts a (List.mem_append_left [m] ha) b (List.mem_append_left [m] hb)
      have hm : m ∈ l ++ [m] := List.mem_append_right l (List.mem_singleton_self m)
      rw [PostMetricAll_append, specifiedPostMetricAll_append, ← ih hl]
      refine PostMetric_eq_specified PostMetrics _ m
        (PostMetricAll_empty_or_below PostMetrics adapter size l) ?_
      intro b hb
      have hbl : b ∈ l ++ [m] :=
        List.mem_append_left [m] (PostMetricAll_metrics_subset PostMetrics adapter size l b hb)
      exact specifiedIdentity_eq_sameIdentity b m (hposts b hbl m hm) (hposts m hm b hbl)
  · intro m hm
    have hJ := PostMetricAll_empty_or_below PostMetrics adapter size posts (E := E)
    have hlt : ((((NewMetricsBuffer size adapter : metricsBuffer F E S).PostMetricAll
        PostMetrics posts).metrics.length : Nat) : Int) <
        ((NewMetricsBuffer size adapter : metricsBuffer F E S).PostMetricAll PostMetrics
          posts).size := by
      rcases hJ with h | h
      · obtain ⟨b, hb, _⟩ := hm
        rw [h] at hb
        exact absurd hb (List.not_mem_nil b)
      · exact h
    unfold metricsBuffer.PostMetric
    rw [addMetric_of_match PostMetrics _ m hm]
    simp only [postMetrics_metrics, postMetrics_size]
    rw [if_pos hlt]
    exact ⟨postMetrics_posted PostMetrics _ _, postMetrics_metrics PostMetrics _ _⟩

/-- C18 as amended, with capacity 2 and the posts of `requestsMetric`,
`latencyMetric` and `requestsMetric` again, none of which has the nil map. -/
theorem PostMetric_refines_specified_witness :
    (∀ a ∈ [requestsMetric, latencyMetric, requestsMetricAgain],
      ∀ b ∈ [requestsMetric, latencyMetric, requestsMetricAgain],
        a.Name = b.Name → a.Labels = none → ∀ l, b.Labels = some l → l.entries ≠ []) ∧
    (NewMetricsBuffer 2 () : metricsBuffer Float String Unit).PostMetricAll acceptingAdapter
        [requestsMetric, latencyMetric, requestsMetricAgain] =
      (NewMetricsBuffer 2 () : metricsBuffer Float String Unit).specifiedPostMetricAll
        acceptingAdapter [requestsMetric, latencyMetric, requestsMetricAgain] :=
  have hposts : ∀ a ∈ [requestsMetric, latencyMetric, requestsMetricAgain],
      ∀ b ∈ [requestsMetric, latencyMetric, requestsMetricAgain],
        a.Name = b.Name → a.Labels = none → ∀ l, b.Labels = some l → l.entries ≠ [] := by
    intro a ha b _ _ hnil
    simp only [List.mem_cons, List.mem_singleton, List.not_mem_nil, or_false] at ha
    rcases ha with rfl | rfl | rfl <;> exact Option.noConfusion hnil
  ⟨hposts, (PostMetric_refines_specified acceptingAdapter () 2
    [requestsMetric, latencyMetric, requestsMetricAgain] hposts).1⟩

/-- C18 fails as stated: with capacity 3, after a metric with the nil label map
and a metric of the same name with an allocated empty map, `PostMetric` has
handed over no batch and holds both metrics, and the specified procedure, for
which the two are one identity, has handed over the second as a batch of one and
holds the first alone. -/
theorem PostMetric_specified_nil_empty_counterexample :
    ((NewMetricsBuffer 3 () : metricsBuffer Float String Unit).PostMetricAll acceptingAdapter
      [nilLabelsMetric, emptyLabelsMetric]).posted = [] ∧
    ((NewMetricsBuffer 3 () : metricsBuffer Float String Unit).PostMetricAll acceptingAdapter
      [nilLabelsMetric, emptyLabelsMetric]).metrics = [nilLabelsMetric, emptyLabelsMetric] ∧
    ((NewMetricsBuffer 3 () : metricsBuffer Float String Unit).specifiedPostMetricAll
      acceptingAdapter [nilLabelsMetric, emptyLabelsMetric]).posted = [[emptyLabelsMetric]] ∧
    ((NewMetricsBuffer 3 () : metricsBuffer Float String Unit).specifiedPostMetricAll
      acceptingAdapter [nilLabelsMetric, emptyLabelsMetric]).metrics = [nilLabelsMetric] ∧
    (NewMetricsBuffer 3 () : metricsBuffer Float String Unit).PostMetricAll acceptingAdapter
        [nilLabelsMetric, emptyLabelsMetric] ≠
      (NewMetricsBuffer 3 () : metricsBuffer Float String Unit).specifiedPostMetricAll
        acceptingAdapter [nilLabelsMetric, emptyLabelsMetric] :=
  ⟨rfl, rfl, rfl, rfl,
    fun h => absurd (congrArg (fun b => b.posted.length) h) (by decide)⟩

end BufferTheorems

end StackdriverNozzle
